import Mathlib

/-!
Shallow embedding of `src/tools/uv_island_gradient.py` (UV-island gradient
generator).  Machine floats are modelled by exact rationals (ℚ), NumPy arrays
by lists, and fallible code by `Except String`.  Definitions mirror the Python
source function by function and keep its names.
-/

set_option maxRecDepth 100000

namespace UVIG

/-! ### 64-bit word helpers (Python ints truncated to 64 bits) -/

/-- Truncate to a 64-bit word. -/
def w64 (x : Nat) : Nat := x % 18446744073709551616

/-- Right rotation of a 64-bit word. -/
def rotr64 (x n : Nat) : Nat := w64 ((x >>> n) ||| (x <<< (64 - n)))

/-! ### BLAKE2b with an 8-byte digest

Model of the external call `hashlib.blake2b(data, digest_size=8)` used by
`stable_hash64` (RFC 7693, no key/salt, `nn = 8`). -/

/-- BLAKE2b initialisation vector. -/
def blake2bIV : List Nat :=
  [0x6a09e667f3bcc908, 0xbb67ae8584caa73b, 0x3c6ef372fe94f82b, 0xa54ff53a5f1d36f1,
   0x510e527fade682d1, 0x9b05688c2b3e6c1f, 0x1f83d9abfb41bd6b, 0x5be0cd19137e2179]

/-- BLAKE2b message-schedule permutations. -/
def blake2bSigma : List (List Nat) :=
  [[0, 1, 2, 3, 4, 5, 6, 7, 8, 9, 10, 11, 12, 13, 14, 15],
   [14, 10, 4, 8, 9, 15, 13, 6, 1, 12, 0, 2, 11, 7, 5, 3],
   [11, 8, 12, 0, 5, 2, 15, 13, 10, 14, 3, 6, 7, 1, 9, 4],
   [7, 9, 3, 1, 13, 12, 11, 14, 2, 6, 5, 10, 4, 0, 15, 8],
   [9, 0, 5, 7, 2, 4, 10, 15, 14, 1, 11, 12, 6, 8, 3, 13],
   [2, 12, 6, 10, 0, 11, 8, 3, 4, 13, 7, 5, 15, 14, 1, 9],
   [12, 5, 1, 15, 14, 13, 4, 10, 0, 7, 6, 3, 9, 2, 8, 11],
   [13, 11, 7, 14, 12, 1, 3, 9, 5, 0, 15, 4, 8, 6, 2, 10],
   [6, 15, 14, 9, 11, 3, 0, 8, 12, 2, 13, 7, 1, 4, 10, 5],
   [10, 2, 8, 4, 7, 6, 1, 5, 15, 11, 9, 14, 3, 12, 13, 0]]

/-- BLAKE2b mixing function G acting on state positions `a b c d`. -/
def blake2bG (v : List Nat) (a b c d : Nat) (x y : Nat) : List Nat :=
  let va := (v.getD a 0 + v.getD b 0 + x) % 18446744073709551616
  let vd := rotr64 (v.getD d 0 ^^^ va) 32
  let vc := (v.getD c 0 + vd) % 18446744073709551616
  let vb := rotr64 (v.getD b 0 ^^^ vc) 24
  let va := (va + vb + y) % 18446744073709551616
  let vd := rotr64 (vd ^^^ va) 16
  let vc := (vc + vd) % 18446744073709551616
  let vb := rotr64 (vb ^^^ vc) 63
  (((v.set a va).set b vb).set c vc).set d vd

/-- Little-endian interpretation of a byte list. -/
def leWord (bytes : List Nat) : Nat :=
  bytes.foldr (fun b acc => b + 256 * acc) 0

/-- One BLAKE2b round with message words `m` and schedule row `s`. -/
def blake2bRound (m : List Nat) (v : List Nat) (r : Nat) : List Nat :=
  let s := blake2bSigma.getD (r % 10) []
  let mi := fun i => m.getD (s.getD i 0) 0
  let v := blake2bG v 0 4 8 12 (mi 0) (mi 1)
  let v := blake2bG v 1 5 9 13 (mi 2) (mi 3)
  let v := blake2bG v 2 6 10 14 (mi 4) (mi 5)
  let v := blake2bG v 3 7 11 15 (mi 6) (mi 7)
  let v := blake2bG v 0 5 10 15 (mi 8) (mi 9)
  let v := blake2bG v 1 6 11 12 (mi 10) (mi 11)
  let v := blake2bG v 2 7 8 13 (mi 12) (mi 13)
  blake2bG v 3 4 9 14 (mi 14) (mi 15)

/-- BLAKE2b compression of one 128-byte block. -/
def blake2bCompress (h : List Nat) (block : List Nat) (t : Nat) (f : Bool) : List Nat :=
  let m := (List.range 16).map (fun i => leWord ((block.drop (8 * i)).take 8))
  let v := h ++ blake2bIV
  let v := v.set 12 (v.getD 12 0 ^^^ w64 t)
  let v := v.set 13 (v.getD 13 0 ^^^ w64 (t >>> 64))
  let v := if f then v.set 14 (v.getD 14 0 ^^^ 18446744073709551615) else v
  let v := (List.range 12).foldl (blake2bRound m) v
  (List.range 8).map (fun i => h.getD i 0 ^^^ v.getD i 0 ^^^ v.getD (i + 8) 0)

/-- Split into 128-byte chunks (fuel-driven). -/
def chunks128 : Nat → List Nat → List (List Nat)
  | 0, _ => []
  | _, [] => []
  | fuel + 1, l => l.take 128 :: chunks128 fuel (l.drop 128)

/-- Sequentially compress all blocks; the last block is padded and flagged final. -/
def blake2bBlocks (dataLen : Nat) : List Nat → Nat → List (List Nat) → List Nat
  | h, _, [] => h
  | h, _, [last] =>
      blake2bCompress h (last ++ List.replicate (128 - last.length) 0) dataLen true
  | h, i, b :: rest =>
      blake2bBlocks dataLen (blake2bCompress h b ((i + 1) * 128) false) (i + 1) rest

/-- BLAKE2b state words for a message, with `digest_size = 8` (so `h0` is
xored with `0x01010008`). -/
def blake2b8State (data : List Nat) : List Nat :=
  let h0 := blake2bIV.set 0 (blake2bIV.getD 0 0 ^^^ 0x01010008)
  let blocks := if data.isEmpty then [[]] else chunks128 data.length data
  blake2bBlocks data.length h0 0 blocks

/-- Read a 64-bit word's little-endian bytes back as a big-endian integer
(`int.from_bytes(digest, byteorder="big")` on the 8-byte digest). -/
def bswap64 (x : Nat) : Nat :=
  (List.range 8).foldl (fun acc i => acc * 256 + ((x >>> (8 * i)) % 256)) 0

/-- UTF-8 encoding of one Unicode code point. -/
def utf8Bytes (c : Nat) : List Nat :=
  if c < 0x80 then [c]
  else if c < 0x800 then
    [0xC0 ||| (c >>> 6), 0x80 ||| (c &&& 0x3F)]
  else if c < 0x10000 then
    [0xE0 ||| (c >>> 12), 0x80 ||| ((c >>> 6) &&& 0x3F), 0x80 ||| (c &&& 0x3F)]
  else
    [0xF0 ||| (c >>> 18), 0x80 ||| ((c >>> 12) &&& 0x3F),
     0x80 ||| ((c >>> 6) &&& 0x3F), 0x80 ||| (c &&& 0x3F)]

/-- UTF-8 bytes of a string (`str.encode("utf-8")`). -/
def strBytes (s : String) : List Nat :=
  s.data.foldr (fun c acc => utf8Bytes c.toNat ++ acc) []

/-- Island identities are Python `Union[int, str]`. -/
abbrev IslandId := Int ⊕ String

/-- Python `str(value)` on an island id. -/
def islandIdStr : IslandId → String
  | Sum.inl n => toString n
  | Sum.inr s => s

/-- `stable_hash64` (source lines 86-88): BLAKE2b-8 digest of `str(value)`,
read as a big-endian unsigned 64-bit integer. -/
def stable_hash64 (value : IslandId) : Nat :=
  bswap64 ((blake2b8State (strBytes (islandIdStr value))).getD 0 0)

example : stable_hash64 (Sum.inl 5) = 10039658952310757792 := by decide
example : stable_hash64 (Sum.inr "hood") = 6476947251528881521 := by decide
example : stable_hash64 (Sum.inl (-3)) = 5536901615870580601 := by decide

/-! ### Rational helpers (floats are modelled exactly by ℚ) -/

/-- Module-level tolerance `EPS = 1e-8`. -/
def EPS : ℚ := 1 / 100000000

/-- Python `x % m` for a positive float modulus `m`: result lies in `[0, m)`. -/
def qmod (x m : ℚ) : ℚ := x - m * ⌊x / m⌋

/-- `clamp` (source lines 91-92). -/
def clamp (value lo hi : ℚ) : ℚ := max lo (min hi value)

/-- `clamp01_array` (source lines 95-96). -/
def clamp01_array (arr : List ℚ) : List ℚ := arr.map (fun x => clamp x 0 1)

/-- NumPy/Python rounding: round half to even (the fractional part is compared
with 1/2 via `2 * q` against `2 * floor q + 1`). -/
def roundHalfEven (q : ℚ) : ℤ :=
  if 2 * q < 2 * ⌊q⌋ + 1 then ⌊q⌋
  else if 2 * ⌊q⌋ + 1 < 2 * q then ⌊q⌋ + 1
  else if ⌊q⌋ % 2 = 0 then ⌊q⌋ else ⌊q⌋ + 1

/-- `np.min` on a nonempty list (0 on the empty list, which NumPy rejects). -/
def listMin : List ℚ → ℚ
  | [] => 0
  | x :: xs => xs.foldl min x

/-- `np.max` on a nonempty list (0 on the empty list, which NumPy rejects). -/
def listMax : List ℚ → ℚ
  | [] => 0
  | x :: xs => xs.foldl max x

/-- A UV point (one row of an `(N,2)` float array). -/
abbrev Pt := ℚ × ℚ

/-- `np.mean(pts, axis=0)` (division by zero yields 0 on the empty list,
which NumPy rejects). -/
def meanPt (pts : List Pt) : Pt :=
  ((pts.map Prod.fst).sum / (pts.length : ℚ), (pts.map Prod.snd).sum / (pts.length : ℚ))

/-- `infer_uvs_from_pixels` (source lines 99-102). -/
def infer_uvs_from_pixels (pixels : List (Int × Int)) (width height : Int) : List Pt :=
  pixels.map (fun p =>
    (((p.1 : ℚ) + 1 / 2) / ((max 1 width : Int) : ℚ),
     1 - ((p.2 : ℚ) + 1 / 2) / ((max 1 height : Int) : ℚ)))

/-! ### Axis & local-parameter engine -/

/-- Deterministic orientation flip (source lines 129-135): make the
larger-magnitude component non-negative, ties preferring the first axis. -/
def orient_axis (a : Pt) : Pt :=
  if |a.1| ≥ |a.2| then (if a.1 < 0 then (-a.1, -a.2) else a)
  else (if a.2 < 0 then (-a.1, -a.2) else a)

/-- Deterministic stride subsample `sample[::step]` (source lines 110-112). -/
def strideSample (l : List Pt) (step : Nat) : List Pt :=
  (l.enum.filter (fun p => p.1 % step = 0)).map Prod.snd

/-- Model of `np.linalg.eigh` plus normalisation (source lines 114-127): the
oracle returns the unit eigenvector of the largest eigenvalue of the
mean-centred covariance of the sample, or `none` on `LinAlgError` /
non-finite / near-zero norm.  It is kept abstract because it involves
irrational square roots; every theorem below holds for an arbitrary oracle. -/
abbrev EigOracle := List Pt → Option Pt

/-- `compute_principal_axis` (source lines 105-137), with the
eigendecomposition step supplied by an oracle. -/
def compute_principal_axis (eig : EigOracle) (points_uv : List Pt) : Option Pt :=
  if points_uv.length < 2 then none
  else
    let sample :=
      if points_uv.length > 20000 then
        strideSample points_uv ((points_uv.length + 19999) / 20000)
      else points_uv
    match eig sample with
    | none => none
    | some axis => some (orient_axis axis)

/-- `normalize_local_uv` (source lines 140-153). -/
def normalize_local_uv (uvs : List Pt) (eps : ℚ) : List Pt × ℚ × ℚ :=
  let min_u := listMin (uvs.map Prod.fst)
  let max_u := listMax (uvs.map Prod.fst)
  let min_v := listMin (uvs.map Prod.snd)
  let max_v := listMax (uvs.map Prod.snd)
  let span_u := max_u - min_u
  let span_v := max_v - min_v
  (uvs.map (fun p => ((p.1 - min_u) / max eps span_u, (p.2 - min_v) / max eps span_v)),
   span_u, span_v)

/-- `fallback_t_from_bbox` (source lines 156-165). -/
def fallback_t_from_bbox (pixel_uvs : List Pt) (eps : ℚ) : List ℚ :=
  let r := normalize_local_uv pixel_uvs eps
  if r.2.1 < eps ∧ r.2.2 < eps then pixel_uvs.map (fun _ => (1 / 2 : ℚ))
  else if r.2.1 ≥ r.2.2 then r.1.map Prod.fst
  else r.1.map Prod.snd

/-- Projection of a UV point onto `axis` relative to `center`
(`(pixel_uvs - center) @ axis`, source line 174). -/
def projT (center axis p : Pt) : ℚ :=
  (p.1 - center.1) * axis.1 + (p.2 - center.2) * axis.2

/-- `compute_local_t` (source lines 168-181). -/
def compute_local_t (eig : EigOracle) (pixel_uvs axis_source_uvs : List Pt) (eps : ℚ) :
    List ℚ :=
  match compute_principal_axis eig axis_source_uvs with
  | none => clamp01_array (fallback_t_from_bbox pixel_uvs eps)
  | some axis =>
    let center := meanPt axis_source_uvs
    let t_raw := pixel_uvs.map (projT center axis)
    let t_min := listMin t_raw
    let t_max := listMax t_raw
    let span := t_max - t_min
    if span < eps then clamp01_array (fallback_t_from_bbox pixel_uvs eps)
    else clamp01_array (t_raw.map (fun t => (t - t_min) / span))

/-! ### Palette & color engine -/

/-- An HSV triple (hue in degrees, saturation and value in `[0,1]`). -/
abbrev HSV := ℚ × ℚ × ℚ

/-- `PALETTE_LIBRARY` (source lines 70-75). -/
def PALETTE_LIBRARY : List (HSV × HSV) :=
  [((274, 0.58, 0.92), (214, 0.56, 0.94)),
   ((326, 0.64, 0.92), (28, 0.64, 0.93)),
   ((188, 0.69, 0.89), (132, 0.62, 0.92)),
   ((314, 0.67, 0.90), (272, 0.66, 0.89))]

/-- `palette_for_island` (source lines 184-208). -/
def palette_for_island (island_id : IslandId) : HSV × HSV :=
  let seed := stable_hash64 island_id
  let base := PALETTE_LIBRARY.getD (seed % PALETTE_LIBRARY.length) ((0, 0, 0), (0, 0, 0))
  let hue_offset : ℚ := (((seed >>> 8) &&& 0xFFFF : Nat) : ℚ) / 65535 * 16 - 8
  let sat_offset : ℚ := (((seed >>> 24) &&& 0xFFFF : Nat) : ℚ) / 65535 * 0.06 - 0.03
  let val_offset : ℚ := (((seed >>> 40) &&& 0xFFFF : Nat) : ℚ) / 65535 * 0.04 - 0.02
  ((qmod (base.1.1 + hue_offset) 360,
    clamp (base.1.2.1 + sat_offset) 0.55 0.75,
    clamp (base.1.2.2 + val_offset) 0.85 0.95),
   (qmod (base.2.1 + hue_offset) 360,
    clamp (base.2.2.1 + sat_offset) 0.55 0.75,
    clamp (base.2.2.2 + val_offset) 0.85 0.95))

/-- Spec-side reformulation of the palette derivation (spec section 4.3: select
one of four base palettes via hash mod 4, apply identical hash-derived jitter
to both stops, clamp saturation into [0.55, 0.75] and value into
[0.85, 0.95]), stated for comparison against `palette_for_island`. -/
def palette_spec (island_id : IslandId) : HSV × HSV :=
  let seed := stable_hash64 island_id
  let hue_offset : ℚ := (((seed >>> 8) &&& 0xFFFF : Nat) : ℚ) / 65535 * 16 - 8
  let sat_offset : ℚ := (((seed >>> 24) &&& 0xFFFF : Nat) : ℚ) / 65535 * 0.06 - 0.03
  let val_offset : ℚ := (((seed >>> 40) &&& 0xFFFF : Nat) : ℚ) / 65535 * 0.04 - 0.02
  let base := PALETTE_LIBRARY.getD (seed % 4) ((0, 0, 0), (0, 0, 0))
  ((qmod (base.1.1 + hue_offset) 360,
    clamp (base.1.2.1 + sat_offset) 0.55 0.75,
    clamp (base.1.2.2 + val_offset) 0.85 0.95),
   (qmod (base.2.1 + hue_offset) 360,
    clamp (base.2.2.1 + sat_offset) 0.55 0.75,
    clamp (base.2.2.2 + val_offset) 0.85 0.95))

/-- `lerp_hsv` (source lines 211-219). -/
def lerp_hsv (left_hsv right_hsv : HSV) (t : List ℚ) : List HSV :=
  let dh := qmod (right_hsv.1 - left_hsv.1 + 180) 360 - 180
  t.map (fun tt =>
    (qmod (left_hsv.1 + dh * tt) 360,
     left_hsv.2.1 + (right_hsv.2.1 - left_hsv.2.1) * tt,
     left_hsv.2.2 + (right_hsv.2.2 - left_hsv.2.2) * tt))

/-- An 8-bit RGB triple. -/
abbrev RGB := Nat × Nat × Nat

/-- The final `np.clip(np.round(ch * 255), 0, 255).astype(np.uint8)` step
applied to one channel. -/
def toByte (q : ℚ) : Nat := (max 0 (min 255 (roundHalfEven (q * 255)))).toNat

/-- `hsv_to_rgb_np` (source lines 222-254). -/
def hsv_to_rgb_np (hsv : List HSV) : List RGB :=
  hsv.map (fun p =>
    let h := qmod p.1 360
    let s := clamp p.2.1 0 1
    let v := clamp p.2.2 0 1
    let c := v * s
    let hp := h / 60
    let x := c * (1 - |qmod hp 2 - 1|)
    let m := v - c
    let rgb1 : ℚ × ℚ × ℚ :=
      if 0 ≤ hp ∧ hp < 1 then (c, x, 0)
      else if 1 ≤ hp ∧ hp < 2 then (x, c, 0)
      else if 2 ≤ hp ∧ hp < 3 then (0, c, x)
      else if 3 ≤ hp ∧ hp < 4 then (0, x, c)
      else if 4 ≤ hp ∧ hp < 5 then (x, 0, c)
      else if 5 ≤ hp ∧ hp < 6 then (c, 0, x)
      else (0, 0, 0)
    (toByte (rgb1.1 + m), toByte (rgb1.2.1 + m), toByte (rgb1.2.2 + m)))

example :
    palette_for_island (Sum.inl 5) =
      ((6004098 / 21845, 1283359 / 2184500, 2992099 / 3276750),
       (4693398 / 21845, 1239669 / 2184500, 1528817 / 1638375)) := by
  have h : stable_hash64 (Sum.inl 5) = 10039658952310757792 := by decide
  have h1 : (10039658952310757792 >>> 8 &&& 65535 : Nat) = 36249 := by decide
  have h2 : (10039658952310757792 >>> 24 &&& 65535 : Nat) = 40942 := by decide
  have h3 : (10039658952310757792 >>> 40 &&& 65535 : Nat) = 21512 := by decide
  norm_num [palette_for_island, h, h1, h2, h3, PALETTE_LIBRARY, List.getD, qmod, clamp,
    min_def, max_def]

example :
    hsv_to_rgb_np (lerp_hsv (palette_for_island (Sum.inl 5)).1
      (palette_for_island (Sum.inl 5)).2 [1 / 2]) = [(110, 99, 235)] := by
  have h : stable_hash64 (Sum.inl 5) = 10039658952310757792 := by decide
  have h1 : (10039658952310757792 >>> 8 &&& 65535 : Nat) = 36249 := by decide
  have h2 : (10039658952310757792 >>> 24 &&& 65535 : Nat) = 40942 := by decide
  have h3 : (10039658952310757792 >>> 40 &&& 65535 : Nat) = 21512 := by decide
  norm_num [hsv_to_rgb_np, lerp_hsv, palette_for_island, h, h1, h2, h3, PALETTE_LIBRARY,
    List.getD, qmod, clamp, min_def, max_def, toByte, roundHalfEven, abs_of_nonneg,
    abs_of_nonpos]
  omega

/-! ### Data model -/

/-- One resolved island (`IslandData`, source lines 78-83). -/
structure IslandData where
  island_id : IslandId
  pixels : List (Int × Int)
  pixel_uvs : Option (List Pt) := none
  uv_points : Option (List Pt) := none
  deriving DecidableEq

/-- A decoded 2D integer raster (NumPy `(H, W)` int array, row-major). -/
abbrev Grid := List (List Int)

/-- An RGBA pixel (8-bit channels). -/
abbrev RGBA := Nat × Nat × Nat × Nat

/-- The output raster (`(H, W, 4)` uint8 array, row-major). -/
abbrev Raster := List (List RGBA)

/-- Rectangularity of a 2D array: NumPy arrays are rectangular by
construction; ragged lists are outside the model. -/
def IsRect {α : Type} (g : List (List α)) : Prop :=
  ∀ row ∈ g, row.length = (g.headD []).length

/-- Value of the cell at integer coordinates `(x, y)` (0 outside the grid);
`id_map[y][x]` for in-range nonnegative indices. -/
def cellAt (g : Grid) (x y : Int) : Int := (g.getD y.toNat []).getD x.toNat 0

/-- Coordinates `(x, y)` of the cells holding `island_id`, in NumPy
`np.where`/`column_stack` row-major order (source lines 347-350 and 616-620). -/
def gridCoords (g : Grid) (island_id : Int) : List (Int × Int) :=
  (g.enum.map (fun ry =>
    (ry.2.enum.filter (fun xv => xv.2 = island_id)).map
      (fun xv => ((xv.1 : Int), (ry.1 : Int))))).flatten

/-- Sorted duplicate-free insertion, building `np.unique` of the cell values. -/
def insertUnique (x : Int) : List Int → List Int
  | [] => [x]
  | y :: ys => if x < y then x :: y :: ys else if x = y then y :: ys else y :: insertUnique x ys

/-- `np.unique(ids)`: the sorted list of distinct cell values. -/
def np_unique (g : Grid) : List Int := g.flatten.foldr insertUnique []

/-- `islands_from_id_map` (source lines 337-353).  The `ids.ndim != 2` check
is made unrepresentable by the `Grid` type. -/
def islands_from_id_map (ids : Grid) (background_id : Int) :
    List IslandData × Nat × Nat :=
  let height := ids.length
  let width := (ids.headD []).length
  let unique_ids := (np_unique ids).filter (fun v => v ≠ background_id)
  let islands := unique_ids.filterMap (fun island_id =>
    let pixels := gridCoords ids island_id
    if pixels.isEmpty then none
    else some { island_id := Sum.inl island_id, pixels := pixels })
  (islands, width, height)

/-- `load_id_map`, RGB/RGBA branch (source lines 323-332): pack the RGB
triple into 24 bits; with an alpha channel, pixels with `alpha == 0` are
set to 0.  `channels` is the decoded image's channel count (`arr.shape[2]`);
fewer than 3 channels is the fatal unsupported-shape error (line 334). -/
def load_id_map_rgb (arr : List (List (List Nat))) (channels : Nat) :
    Except String Grid :=
  if channels ≥ 3 then
    Except.ok (arr.map (fun row => row.map (fun px =>
      let packed : Int :=
        ((px.getD 0 0 <<< 16) ||| (px.getD 1 0 <<< 8) ||| px.getD 2 0 : Nat)
      if channels ≥ 4 ∧ px.getD 3 0 = 0 then 0 else packed)))
  else Except.error "Unsupported ID map shape"

/-! ### Explicit-islands resolver -/

/-- Lexicographic sorted duplicate-free insertion of pixel rows, building
`np.unique(p, axis=0)` (sorts rows, drops duplicates). -/
def insertUniquePix (x : Int × Int) : List (Int × Int) → List (Int × Int)
  | [] => [x]
  | y :: ys =>
    if x.1 < y.1 ∨ (x.1 = y.1 ∧ x.2 < y.2) then x :: y :: ys
    else if x = y then y :: ys
    else y :: insertUniquePix x ys

/-- `np.unique(p, axis=0)` on an `(N,2)` integer array. -/
def np_unique_rows (l : List (Int × Int)) : List (Int × Int) :=
  l.foldr insertUniquePix []

/-- `normalize_pixels` (source lines 257-273): clip to canvas bounds, then
sort and deduplicate.  The `(N,2)`-shape check is made unrepresentable by
the list-of-pairs type. -/
def normalize_pixels (pixels : List (Int × Int)) (width height : Int) :
    List (Int × Int) :=
  let p := pixels.filter (fun q =>
    decide (0 ≤ q.1) && decide (q.1 < width) && decide (0 ≤ q.2) && decide (q.2 < height))
  np_unique_rows p

/-- One island descriptor of the explicit payload (already decoded: `mask`
holds the grayscale raster of an external image, `pixels`/`uvs`/`uv_points`
the parsed `(N,2)` arrays; mis-shaped arrays are rejected by
`parse_int_points`/`parse_float_points` before this model applies). -/
structure ExplicitEntry where
  id : Option IslandId := none
  pixels : Option (List (Int × Int)) := none
  mask : Option (List (List Nat)) := none
  uvs : Option (List Pt) := none
  uv_points : Option (List Pt) := none

/-- The explicit-islands payload. -/
structure ExplicitPayload where
  width : Option Int := none
  height : Option Int := none
  islands : List ExplicitEntry := []

/-- `mask_pixels_from_image` (source lines 356-360): coordinates of the
mask cells with value `> 0`, row-major. -/
def mask_pixels_from_image (mask : List (List Nat)) : List (Int × Int) :=
  (mask.enum.map (fun ry =>
    (ry.2.enum.filter (fun xv => 0 < xv.2)).map
      (fun xv => ((xv.1 : Int), (ry.1 : Int))))).flatten

/-- Loop body of `islands_from_explicit_payload` (source lines 407-441) for
the entry at 0-based position `idx`; `none` means the entry was dropped
because it clipped to zero pixels. -/
def explicit_entry_island (width height : Int) (idx : Nat) (entry : ExplicitEntry) :
    Except String (Option IslandData) :=
  match (match entry.pixels with
         | some px => Except.ok px
         | none =>
           match entry.mask with
           | some m => Except.ok (mask_pixels_from_image m)
           | none => Except.error "islands[] needs either pixels or mask.") with
  | Except.error e => Except.error e
  | Except.ok raw_pixels =>
    let pixels := normalize_pixels raw_pixels width height
    if pixels.isEmpty then Except.ok none
    else
      Except.ok (some
        { island_id := entry.id.getD (Sum.inl ((idx : Int) + 1)),
          pixels := pixels,
          pixel_uvs :=
            match entry.uvs with
            | some uvs => if uvs.length = pixels.length then some uvs else none
            | none => none,
          uv_points := entry.uv_points })

/-- The `for idx, entry in enumerate(islands_raw)` loop of
`islands_from_explicit_payload` (source lines 406-441), collecting islands in
entry order and propagating the first error. -/
def explicit_islands_loop (width height : Int) : Nat → List ExplicitEntry →
    Except String (List IslandData)
  | _, [] => Except.ok []
  | idx, e :: rest =>
    match explicit_entry_island width height idx e with
    | Except.error err => Except.error err
    | Except.ok none => explicit_islands_loop width height (idx + 1) rest
    | Except.ok (some isl) =>
      match explicit_islands_loop width height (idx + 1) rest with
      | Except.error err => Except.error err
      | Except.ok others => Except.ok (isl :: others)

/-- `islands_from_explicit_payload` (source lines 384-446). -/
def islands_from_explicit_payload (payload : ExplicitPayload) :
    Except String (List IslandData × Int × Int) :=
  if payload.islands.isEmpty then
    Except.error "payload.islands must be a non-empty list."
  else
    match
      (if payload.width.isNone ∨ payload.height.isNone then
        match payload.islands.find? (fun e => e.mask.isSome) with
        | some e =>
          match e.mask with
          | some m => (some ((m.headD []).length : Int), some (m.length : Int))
          | none => (payload.width, payload.height)
        | none => (payload.width, payload.height)
      else (payload.width, payload.height)) with
    | (some width, some height) =>
      if width ≤ 0 ∨ height ≤ 0 then Except.error "width and height must be > 0."
      else
        match explicit_islands_loop width height 0 payload.islands with
        | Except.error e => Except.error e
        | Except.ok islands =>
          if islands.isEmpty then
            Except.error "No valid islands were parsed from explicit payload."
          else Except.ok (islands, width, height)
    | _ =>
      Except.error "Explicit islands input requires width and height (or at least one mask to infer them)."

/-! ### Mesh resolver -/

/-- A UV triangle (one row of an `(M,3,2)` float array). -/
abbrev Tri := Pt × Pt × Pt

/-- Default triangle used for (never-taken) out-of-range index lookups. -/
def triDefault : Tri := ((0, 0), (0, 0), (0, 0))

/-- The three corners of a triangle, in order. -/
def triCorners (t : Tri) : List Pt := [t.1, t.2.1, t.2.2]

/-- The three vertex indices of a face, in order. -/
def faceVerts (f : Int × Int × Int) : List Int := [f.1, f.2.1, f.2.2]

/-- `triangles_by_vertex` lookup (source lines 450-454): triangle indices
whose face contains vertex `v`, in ascending order (insertion order of the
Python dict of lists). -/
def triangles_by_vertex (faces : List (Int × Int × Int)) (v : Int) : List Nat :=
  ((faces.enum.filter (fun idxf => v ∈ faceVerts idxf.2)).map (fun idxf => idxf.1))

/-- `quantized_uv_key` (source lines 483-484) with `quant = 1e-6`; Python
`round` rounds half to even. -/
def quantized_uv_key (u v : ℚ) : Int × Int :=
  (roundHalfEven (u / (1 / 1000000)), roundHalfEven (v / (1 / 1000000)))

/-- `triangles_by_uv` lookup (source lines 488-493): triangle indices having
a corner with the given quantized key, in ascending order. -/
def triangles_by_uv (tris : List Tri) (key : Int × Int) : List Nat :=
  ((tris.enum.filter (fun it =>
    key ∈ (triCorners it.2).map (fun p => quantized_uv_key p.1 p.2))).map (fun it => it.1))

/-- Depth-first traversal with an explicit stack (source lines 463-475 and
502-516): pop a triangle, append it to the component, push its unvisited
neighbours after marking them visited.  Fuel-driven; the fuel bound is
never exhausted because every push marks a previously unvisited triangle. -/
def dfs_loop (nbrs : Nat → List Nat) :
    Nat → List Nat → List Bool → List Nat → List Nat × List Bool
  | 0, _, visited, comp => (comp, visited)
  | fuel + 1, stack, visited, comp =>
    match stack with
    | [] => (comp, visited)
    | tri :: rest =>
      let sv := (nbrs tri).foldl
        (fun sv n => if sv.2.getD n false then sv else (n :: sv.1, sv.2.set n true))
        (rest, visited)
      dfs_loop nbrs fuel sv.1 sv.2 (comp ++ [tri])

/-- Outer component-discovery loop (source lines 459-480 and 498-521):
scan start indices in order, launching one DFS per unvisited triangle. -/
def components_loop (nbrs : Nat → List Nat) (n : Nat) : List (List Nat) :=
  ((List.range n).foldl
    (fun acc start =>
      if acc.2.getD start false then acc
      else
        let r := dfs_loop nbrs (n * n + n + 1) [start] (acc.2.set start true) []
        (if r.1.isEmpty then acc.1 else acc.1 ++ [r.1], r.2))
    ([], List.replicate n false)).1

/-- `connected_components_from_faces` (source lines 449-480). -/
def connected_components_from_faces (faces : List (Int × Int × Int)) :
    List (List Nat) :=
  components_loop
    (fun t => (faceVerts (faces.getD t (0, 0, 0))).foldr
      (fun v acc => triangles_by_vertex faces v ++ acc) [])
    faces.length

/-- `connected_components_from_raw_triangles` (source lines 487-521). -/
def connected_components_from_raw_triangles (tris : List Tri) : List (List Nat) :=
  components_loop
    (fun t => (triCorners (tris.getD t triDefault)).foldr
      (fun p acc => triangles_by_uv tris (quantized_uv_key p.1 p.2) ++ acc) [])
    tris.length

/-- `uv_to_px` (source lines 524-528). -/
def uv_to_px (t : Tri) (width height : Int) : Tri :=
  let f := fun (p : Pt) =>
    (clamp p.1 0 1 * ((max 1 (width - 1) : Int) : ℚ),
     (1 - clamp p.2 0 1) * ((max 1 (height - 1) : Int) : ℚ))
  (f t.1, f t.2.1, f t.2.2)

/-- Per-cell painter of `rasterize_triangle_into_map` (source lines 544-562):
barycentric weights of cell `(i, j)` with the small negative tolerance, and
the paint-only-background guard `sub == background_id`. -/
def rasterize_cell (tri_px : Tri) (min_x max_x min_y max_y : Int) (den : ℚ)
    (island_id background_id : Int) (j i : Nat) (v : Int) : Int :=
  let x0 := tri_px.1.1
  let y0 := tri_px.1.2
  let x1 := tri_px.2.1.1
  let y1 := tri_px.2.1.2
  let x2 := tri_px.2.2.1
  let y2 := tri_px.2.2.2
  let gx : ℚ := (i : ℚ)
  let gy : ℚ := (j : ℚ)
  let w0 := ((y1 - y2) * (gx - x2) + (x2 - x1) * (gy - y2)) / den
  let w1 := ((y2 - y0) * (gx - x2) + (x0 - x2) * (gy - y2)) / den
  let w2 := 1 - w0 - w1
  if min_x ≤ (i : Int) ∧ (i : Int) ≤ max_x ∧
     min_y ≤ (j : Int) ∧ (j : Int) ≤ max_y ∧
     -(1 / 1000000) ≤ w0 ∧ -(1 / 1000000) ≤ w1 ∧ -(1 / 1000000) ≤ w2 ∧
     v = background_id
  then island_id else v

/-- `rasterize_triangle_into_map` (source lines 531-563): paint the
barycentric-inside cells of the clipped bounding box that currently hold
`background_id`.  The NumPy in-place slice assignment is modelled as a
whole-grid rewrite; the `np.any(mask)` early return (lines 557-558) does not
change the resulting grid and is dropped. -/
def rasterize_triangle_into_map (id_map : Grid) (tri_px : Tri)
    (island_id background_id : Int) : Grid :=
  let x0 := tri_px.1.1
  let y0 := tri_px.1.2
  let x1 := tri_px.2.1.1
  let y1 := tri_px.2.1.2
  let x2 := tri_px.2.2.1
  let y2 := tri_px.2.2.2
  let min_x : Int := max 0 ⌊min x0 (min x1 x2)⌋
  let max_x : Int := min ((id_map.headD []).length - 1) ⌈max x0 (max x1 x2)⌉
  let min_y : Int := max 0 ⌊min y0 (min y1 y2)⌋
  let max_y : Int := min (id_map.length - 1) ⌈max y0 (max y1 y2)⌉
  if min_x > max_x ∨ min_y > max_y then id_map
  else
    let den := (y1 - y2) * (x0 - x2) + (x2 - x1) * (y0 - y2)
    if |den| < 1 / 1000000000000 then id_map
    else
      id_map.enum.map (fun ry => ry.2.enum.map (fun xv =>
        rasterize_cell tri_px min_x max_x min_y max_y den island_id background_id
          ry.1 xv.1 xv.2))

/-- The `while next_island_id == background_id` skip (source lines 607-608);
one conditional suffices because `next + 1` can never equal `next`'s old
value, so the loop body runs at most once. -/
def skip_background (next background_id : Int) : Int :=
  if next = background_id then next + 1 else next

/-- Rasterize all triangles of one component (source lines 612-614). -/
def rasterize_component (id_map : Grid) (comp_tris : List Tri)
    (island_id background_id width height : Int) : Grid :=
  comp_tris.foldl
    (fun m tri_uv =>
      rasterize_triangle_into_map m (uv_to_px tri_uv width height) island_id background_id)
    id_map

/-- State threaded through the per-component loop of
`islands_from_mesh_payload` (source lines 599-629). -/
structure MeshState where
  id_map : Grid
  islands : List IslandData
  next_island_id : Int

/-- Loop body of `islands_from_mesh_payload` (source lines 603-629) for one
connected component. -/
def mesh_process_component (background_id width height : Int)
    (triangles_uv : List Tri) (st : MeshState) (comp : List Nat) : MeshState :=
  let comp_tris := comp.map (fun i => triangles_uv.getD i triDefault)
  let island_id := skip_background st.next_island_id background_id
  let next := island_id + 1
  let id_map := rasterize_component st.id_map comp_tris island_id background_id width height
  let pixels := gridCoords id_map island_id
  if pixels.isEmpty then
    { id_map := id_map, islands := st.islands, next_island_id := next }
  else
    { id_map := id_map,
      islands := st.islands ++
        [{ island_id := Sum.inl island_id, pixels := pixels, pixel_uvs := none,
           uv_points := some (comp_tris.foldr (fun t acc => triCorners t ++ acc) []) }],
      next_island_id := next }

/-- The mesh payload (already-parsed numeric arrays). -/
structure MeshPayload where
  width : Int := 0
  height : Int := 0
  background_id : Int := 0
  uv_vertices : Option (List Pt) := none
  faces : Option (List (Int × Int × Int)) := none
  triangles : Option (List Tri) := none

/-- Input-shape selection of `islands_from_mesh_payload` (source lines
574-597): indexed faces (validated) or raw triangles, with the connected
components of the chosen representation. -/
def mesh_triangles_components (p : MeshPayload) :
    Except String (List Tri × List (List Nat)) :=
  match p.uv_vertices, p.faces with
  | some vs, some fs =>
    if fs.any (fun f => decide (f.1 < 0) || decide (f.2.1 < 0) || decide (f.2.2 < 0) ||
        decide ((vs.length : Int) ≤ f.1) || decide ((vs.length : Int) ≤ f.2.1) ||
        decide ((vs.length : Int) ≤ f.2.2)) then
      Except.error "faces contain out-of-range UV vertex indices."
    else
      Except.ok
        (fs.map (fun f => (vs.getD f.1.toNat (0, 0), vs.getD f.2.1.toNat (0, 0),
           vs.getD f.2.2.toNat (0, 0))),
         connected_components_from_faces fs)
  | _, _ =>
    match p.triangles with
    | some tris => Except.ok (tris, connected_components_from_raw_triangles tris)
    | none => Except.error "Mesh payload needs either (uv_vertices + faces) or triangles."

/-- `islands_from_mesh_payload` (source lines 566-634).  The array-shape
checks on `faces`/`triangles` are made unrepresentable by the types. -/
def islands_from_mesh_payload (p : MeshPayload) :
    Except String (List IslandData × Int × Int) :=
  if p.width ≤ 0 ∨ p.height ≤ 0 then
    Except.error "Mesh input requires positive width and height."
  else
    match mesh_triangles_components p with
    | Except.error e => Except.error e
    | Except.ok tc =>
      let id_map0 : Grid :=
        List.replicate p.height.toNat (List.replicate p.width.toNat p.background_id)
      let final := tc.2.foldl
        (mesh_process_component p.background_id p.width p.height tc.1)
        { id_map := id_map0, islands := [], next_island_id := 1 }
      if final.islands.isEmpty then
        Except.error "No islands were detected/rasterized from mesh payload."
      else Except.ok (final.islands, p.width, p.height)

/-! ### Compositor -/

/-- Scatter-write one pixel's RGB with alpha forced to 255
(`out[y, x, 0:3] = rgb; out[y, x, 3] = 255`, source lines 310-311). -/
def writePixel (out : Raster) (x y : Int) (c : RGB) : Raster :=
  out.enum.map (fun ry =>
    if (ry.1 : Int) = y then
      ry.2.enum.map (fun xv =>
        if (xv.1 : Int) = x then (c.1, c.2.1, c.2.2, 255) else xv.2)
    else ry.2)

/-- Per-island body of the render loop (source lines 286-311). -/
def render_one_island (eig : EigOracle) (width height : Nat) (out : Raster)
    (island : IslandData) : Raster :=
  if island.pixels.isEmpty then out
  else
    let pixel_uvs :=
      match island.pixel_uvs with
      | some uvs =>
        if uvs.length = island.pixels.length then uvs
        else infer_uvs_from_pixels island.pixels width height
      | none => infer_uvs_from_pixels island.pixels width height
    let axis_source :=
      match island.uv_points with
      | none => pixel_uvs
      | some pts => if pts.isEmpty then pixel_uvs else pts
    let t := compute_local_t eig pixel_uvs axis_source EPS
    let pal := palette_for_island island.island_id
    let rgb := hsv_to_rgb_np (lerp_hsv pal.1 pal.2 t)
    (island.pixels.zip rgb).foldl (fun o pr => writePixel o pr.1.1 pr.1.2 pr.2) out

/-- `render_island_gradients` (source lines 276-313). -/
def render_island_gradients (eig : EigOracle) (width height : Nat)
    (islands : List IslandData) (transparent_background : Bool) : Raster :=
  let out : Raster :=
    List.replicate height
      (List.replicate width (0, 0, 0, if transparent_background then 0 else 255))
  islands.foldl (render_one_island eig width height) out

/-! ### End-to-end pipelines (the `main` flow per input mode) -/

/-- The ID-map pipeline of `main`/`load_islands` (source lines 661-663 and
730-735): resolve islands from a decoded ID raster, then render.  Note that
`islands_from_id_map` cannot fail. -/
def pipeline_id_map (eig : EigOracle) (ids : Grid) (background_id : Int)
    (transparent_background : Bool) : Raster :=
  let r := islands_from_id_map ids background_id
  render_island_gradients eig r.2.1 r.2.2 r.1 transparent_background

/-- The explicit-islands pipeline of `main`/`load_islands`. -/
def pipeline_explicit (eig : EigOracle) (payload : ExplicitPayload)
    (transparent_background : Bool) : Except String Raster :=
  match islands_from_explicit_payload payload with
  | Except.error e => Except.error e
  | Except.ok r =>
    Except.ok (render_island_gradients eig r.2.1.toNat r.2.2.toNat r.1 transparent_background)

/-- The mesh pipeline of `main`/`load_islands`. -/
def pipeline_mesh (eig : EigOracle) (payload : MeshPayload)
    (transparent_background : Bool) : Except String Raster :=
  match islands_from_mesh_payload payload with
  | Except.error e => Except.error e
  | Except.ok r =>
    Except.ok (render_island_gradients eig r.2.1.toNat r.2.2.toNat r.1 transparent_background)

/-- Integer value of a mesh-mode island id (mesh islands always carry
`Sum.inl`). -/
def islandIdInt : IslandId → Int
  | Sum.inl k => k
  | Sum.inr _ => 0

/-- Invariant threaded through the per-component loop of
`islands_from_mesh_payload`: every accumulated island carries an integer id
distinct from the background, smaller than the running counter, its pixels
are duplicate-free, in canvas range, and still hold its id in the current
id map; island ids strictly increase along the list. -/
def MeshInv (bg : Int) (st : MeshState) : Prop :=
  (∀ isl ∈ st.islands, ∃ k : Int, isl.island_id = Sum.inl k ∧ k ≠ bg ∧
    k < st.next_island_id ∧ (∀ p ∈ isl.pixels, cellAt st.id_map p.1 p.2 = k) ∧
    isl.pixels.Nodup ∧
    (∀ p ∈ isl.pixels, 0 ≤ p.1 ∧ 0 ≤ p.2 ∧ p.2 < (st.id_map.length : Int) ∧
      p.1 < ((st.id_map.getD p.2.toNat []).length : Int))) ∧
  List.Pairwise (fun a b => islandIdInt a.island_id < islandIdInt b.island_id) st.islands

/-- Lexicographic strict order on pixel rows, the order `np.unique(p, axis=0)`
sorts by. -/
def pixLex (a b : Int × Int) : Prop := a.1 < b.1 ∨ (a.1 = b.1 ∧ a.2 < b.2)

/-- Concrete explicit payload with two descriptors claiming the same pixel,
used to exhibit explicit-mode islands with overlapping pixel sets. -/
def overlap_payload : ExplicitPayload :=
  { width := some 1, height := some 1,
    islands := [{ pixels := some [(0, 0)] }, { pixels := some [(0, 0)] }] }

/-! ## Helper lemmas -/

theorem clamp_bounds (x lo hi : ℚ) (h : lo ≤ hi) :
    lo ≤ clamp x lo hi ∧ clamp x lo hi ≤ hi := by
  unfold clamp
  exact ⟨le_max_left _ _, max_le h (min_le_left _ _)⟩

theorem clamp01_array_mem (l : List ℚ) : ∀ t ∈ clamp01_array l, 0 ≤ t ∧ t ≤ 1 := by
  intro t ht
  unfold clamp01_array at ht
  obtain ⟨x, _, rfl⟩ := List.mem_map.mp ht
  exact clamp_bounds x 0 1 (by norm_num)

theorem qmod_nonneg (x m : ℚ) (hm : 0 < m) : 0 ≤ qmod x m := by
  unfold qmod
  have h1 : (⌊x / m⌋ : ℚ) ≤ x / m := Int.floor_le _
  have h2 : m * (⌊x / m⌋ : ℚ) ≤ m * (x / m) := by
    exact mul_le_mul_of_nonneg_left h1 hm.le
  have h3 : m * (x / m) = x := by
    field_simp
  linarith

theorem qmod_lt (x m : ℚ) (hm : 0 < m) : qmod x m < m := by
  unfold qmod
  have h1 : x / m < (⌊x / m⌋ : ℚ) + 1 := Int.lt_floor_add_one _
  have h2 : m * (x / m) < m * ((⌊x / m⌋ : ℚ) + 1) := by
    exact mul_lt_mul_of_pos_left h1 hm
  have h3 : m * (x / m) = x := by
    field_simp
  nlinarith

theorem getD_map_eq {α β : Type} (f : α → β) (l : List α) (i : Nat) (h : i < l.length)
    (d : β) : (l.map f).getD i d = f (l.get ⟨i, h⟩) := by
  rw [List.getD_eq_getElem?_getD, List.getElem?_map]
  rw [List.getElem?_eq_getElem h]
  rfl

/-! ## Claim theorems -/

/-- C5: hue interpolation follows the shortest circular path: the hue
difference is wrapped into `[-180, 180]` (in fact `[-180, 180)`) before
scaling by `t`, the resulting hue is wrapped back into `[0, 360)`, and
saturation/value interpolate linearly; for stops with hues 350 and 10 every
interpolated hue for `t ∈ [0, 1]` is in `[350, 360) ∪ [0, 10]` and never
equals 180. -/
theorem C5_lerp_hsv_shortest_path :
    (∀ left right : HSV,
      -180 ≤ qmod (right.1 - left.1 + 180) 360 - 180 ∧
        qmod (right.1 - left.1 + 180) 360 - 180 < 180) ∧
    (∀ (left right : HSV) (ts : List ℚ), ∀ hsv ∈ lerp_hsv left right ts,
      (0 ≤ hsv.1 ∧ hsv.1 < 360) ∧
      ∃ t ∈ ts,
        hsv = (qmod (left.1 + (qmod (right.1 - left.1 + 180) 360 - 180) * t) 360,
               left.2.1 + (right.2.1 - left.2.1) * t,
               left.2.2 + (right.2.2 - left.2.2) * t)) ∧
    (∀ (s0 v0 s1 v1 t : ℚ), 0 ≤ t → t ≤ 1 →
      ∀ hsv ∈ lerp_hsv (350, s0, v0) (10, s1, v1) [t],
        (350 ≤ hsv.1 ∨ hsv.1 ≤ 10) ∧ hsv.1 ≠ 180) := by
  refine ⟨?_, ?_, ?_⟩
  · intro left right
    have h0 := qmod_nonneg (right.1 - left.1 + 180) 360 (by norm_num)
    have h1 := qmod_lt (right.1 - left.1 + 180) 360 (by norm_num)
    constructor <;> linarith
  · intro left right ts hsv hm
    unfold lerp_hsv at hm
    obtain ⟨t, ht, rfl⟩ := List.mem_map.mp hm
    refine ⟨⟨qmod_nonneg _ 360 (by norm_num), qmod_lt _ 360 (by norm_num)⟩, t, ht, rfl⟩
  · intro s0 v0 s1 v1 t ht0 ht1 hsv hm
    unfold lerp_hsv at hm
    dsimp only [List.map] at hm
    simp only [List.mem_singleton] at hm
    subst hm
    have hdh : qmod ((10 : ℚ) - 350 + 180) 360 - 180 = 20 := by
      unfold qmod
      norm_num
    dsimp only
    rw [hdh]
    unfold qmod
    by_cases hc : (350 : ℚ) + 20 * t < 360
    · have hfl : ⌊((350 : ℚ) + 20 * t) / 360⌋ = 0 := by
        rw [Int.floor_eq_zero_iff]
        refine ⟨?_, ?_⟩
        · apply div_nonneg _ (by norm_num)
          linarith
        · rw [div_lt_one (by norm_num)]
          exact hc
      rw [hfl]
      push_cast
      refine ⟨Or.inl (by linarith), by intro h; linarith⟩
    · push_neg at hc
      have hfl : ⌊((350 : ℚ) + 20 * t) / 360⌋ = 1 := by
        rw [Int.floor_eq_iff]
        push_cast
        refine ⟨?_, ?_⟩
        · rw [le_div_iff₀ (by norm_num)]
          linarith
        · rw [div_lt_iff₀ (by norm_num)]
          linarith
      rw [hfl]
      push_cast
      refine ⟨Or.inr (by linarith), by intro h; linarith⟩

/-- C5 witness: for stops with hues 350 and 10 at `t = 1/4`, the interpolated
hue (which is 355) lies near the 0/360 boundary and is not 180. -/
theorem C5_lerp_hsv_shortest_path_witness :
    (350 ≤ ((lerp_hsv (350, 1, 1) (10, 1, 1) [1 / 4]).headD (0, 0, 0)).1 ∨
      ((lerp_hsv (350, 1, 1) (10, 1, 1) [1 / 4]).headD (0, 0, 0)).1 ≤ 10) ∧
    ((lerp_hsv (350, 1, 1) (10, 1, 1) [1 / 4]).headD (0, 0, 0)).1 ≠ 180 := by
  have h := C5_lerp_hsv_shortest_path.2.2 1 1 1 1 (1 / 4) (by norm_num) (by norm_num)
  apply h
  unfold lerp_hsv
  simp

theorem jitter_bounds (n : Nat) (scale shift : ℚ) (hs : 0 ≤ scale) :
    -shift ≤ ((n &&& 65535 : Nat) : ℚ) / 65535 * scale - shift ∧
      ((n &&& 65535 : Nat) : ℚ) / 65535 * scale - shift ≤ scale - shift := by
  have h0 : (0 : ℚ) ≤ ((n &&& 65535 : Nat) : ℚ) := Nat.cast_nonneg _
  have h1 : ((n &&& 65535 : Nat) : ℚ) ≤ 65535 := by
    exact_mod_cast Nat.and_le_right
  have hd0 : (0 : ℚ) ≤ ((n &&& 65535 : Nat) : ℚ) / 65535 := by
    apply div_nonneg h0 (by norm_num)
  have hd1 : ((n &&& 65535 : Nat) : ℚ) / 65535 ≤ 1 := by
    rw [div_le_one (by norm_num)]
    exact h1
  constructor
  · nlinarith
  · nlinarith

/-- C3: palette derivation is a pure function of the island id alone: the
64-bit hash of `str(id)` selects one of the 4 base palettes via `hash mod 4`,
hash-derived jitter (hue offset in `[-8, 8]`, saturation offset in
`[-0.03, 0.03]`, value offset in `[-0.02, 0.02]`) is applied identically to
both stops, saturation is clamped into `[0.55, 0.75]` and value into
`[0.85, 0.95]` (`palette_for_island` coincides with the spec-side
`palette_spec`); equal ids (even merely equal hashes) give equal stop pairs,
and the stops cannot depend on island pixels or canvas size, which are not
inputs of the derivation. -/
theorem C3_palette_pure_function_of_id (id : IslandId) :
    PALETTE_LIBRARY.length = 4 ∧
    (∀ id2 : IslandId, stable_hash64 id = stable_hash64 id2 →
      palette_for_island id = palette_for_island id2) ∧
    stable_hash64 id % 4 < 4 ∧
    palette_for_island id = palette_spec id ∧
    (-8 ≤ (((stable_hash64 id >>> 8) &&& 0xFFFF : Nat) : ℚ) / 65535 * 16 - 8 ∧
      (((stable_hash64 id >>> 8) &&& 0xFFFF : Nat) : ℚ) / 65535 * 16 - 8 ≤ 8) ∧
    ((-0.03 : ℚ) ≤ (((stable_hash64 id >>> 24) &&& 0xFFFF : Nat) : ℚ) / 65535 * 0.06 - 0.03 ∧
      (((stable_hash64 id >>> 24) &&& 0xFFFF : Nat) : ℚ) / 65535 * 0.06 - 0.03 ≤ 0.03) ∧
    ((-0.02 : ℚ) ≤ (((stable_hash64 id >>> 40) &&& 0xFFFF : Nat) : ℚ) / 65535 * 0.04 - 0.02 ∧
      (((stable_hash64 id >>> 40) &&& 0xFFFF : Nat) : ℚ) / 65535 * 0.04 - 0.02 ≤ 0.02) ∧
    (0 ≤ (palette_for_island id).1.1 ∧ (palette_for_island id).1.1 < 360 ∧
      0 ≤ (palette_for_island id).2.1 ∧ (palette_for_island id).2.1 < 360) ∧
    (0.55 ≤ (palette_for_island id).1.2.1 ∧ (palette_for_island id).1.2.1 ≤ 0.75 ∧
      0.55 ≤ (palette_for_island id).2.2.1 ∧ (palette_for_island id).2.2.1 ≤ 0.75) ∧
    (0.85 ≤ (palette_for_island id).1.2.2 ∧ (palette_for_island id).1.2.2 ≤ 0.95 ∧
      0.85 ≤ (palette_for_island id).2.2.2 ∧ (palette_for_island id).2.2.2 ≤ 0.95) := by
  have hlen : PALETTE_LIBRARY.length = 4 := rfl
  have heq : palette_for_island id = palette_spec id := rfl
  have hpal : palette_for_island id =
      ((qmod ((PALETTE_LIBRARY.getD (stable_hash64 id % 4) ((0, 0, 0), (0, 0, 0))).1.1 +
          ((((stable_hash64 id >>> 8) &&& 0xFFFF : Nat) : ℚ) / 65535 * 16 - 8)) 360,
        clamp ((PALETTE_LIBRARY.getD (stable_hash64 id % 4) ((0, 0, 0), (0, 0, 0))).1.2.1 +
          ((((stable_hash64 id >>> 24) &&& 0xFFFF : Nat) : ℚ) / 65535 * 0.06 - 0.03)) 0.55 0.75,
        clamp ((PALETTE_LIBRARY.getD (stable_hash64 id % 4) ((0, 0, 0), (0, 0, 0))).1.2.2 +
          ((((stable_hash64 id >>> 40) &&& 0xFFFF : Nat) : ℚ) / 65535 * 0.04 - 0.02)) 0.85 0.95),
       (qmod ((PALETTE_LIBRARY.getD (stable_hash64 id % 4) ((0, 0, 0), (0, 0, 0))).2.1 +
          ((((stable_hash64 id >>> 8) &&& 0xFFFF : Nat) : ℚ) / 65535 * 16 - 8)) 360,
        clamp ((PALETTE_LIBRARY.getD (stable_hash64 id % 4) ((0, 0, 0), (0, 0, 0))).2.2.1 +
          ((((stable_hash64 id >>> 24) &&& 0xFFFF : Nat) : ℚ) / 65535 * 0.06 - 0.03)) 0.55 0.75,
        clamp ((PALETTE_LIBRARY.getD (stable_hash64 id % 4) ((0, 0, 0), (0, 0, 0))).2.2.2 +
          ((((stable_hash64 id >>> 40) &&& 0xFFFF : Nat) : ℚ) / 65535 * 0.04 - 0.02)) 0.85 0.95)) :=
    rfl
  refine ⟨hlen, ?_, Nat.mod_lt _ (by norm_num), heq, ?_, ?_, ?_, ?_, ?_, ?_⟩
  · intro id2 h
    unfold palette_for_island
    rw [h]
  · have h := jitter_bounds (stable_hash64 id >>> 8) 16 8 (by norm_num)
    exact ⟨h.1, by linarith [h.2]⟩
  · have h := jitter_bounds (stable_hash64 id >>> 24) 0.06 0.03 (by norm_num)
    exact ⟨h.1, by linarith [h.2]⟩
  · have h := jitter_bounds (stable_hash64 id >>> 40) 0.04 0.02 (by norm_num)
    exact ⟨h.1, by linarith [h.2]⟩
  · rw [hpal]
    exact ⟨qmod_nonneg _ 360 (by norm_num), qmod_lt _ 360 (by norm_num),
      qmod_nonneg _ 360 (by norm_num), qmod_lt _ 360 (by norm_num)⟩
  · rw [hpal]
    exact ⟨(clamp_bounds _ _ _ (by norm_num)).1, (clamp_bounds _ _ _ (by norm_num)).2,
      (clamp_bounds _ _ _ (by norm_num)).1, (clamp_bounds _ _ _ (by norm_num)).2⟩
  · rw [hpal]
    exact ⟨(clamp_bounds _ _ _ (by norm_num)).1, (clamp_bounds _ _ _ (by norm_num)).2,
      (clamp_bounds _ _ _ (by norm_num)).1, (clamp_bounds _ _ _ (by norm_num)).2⟩

/-- C3 witness: the theorem applied at the concrete id 5, with its
hash-equality hypothesis discharged by `rfl`. -/
theorem C3_palette_pure_function_of_id_witness :
    palette_for_island (Sum.inl 5) = palette_for_island (Sum.inl 5) ∧
    0.55 ≤ (palette_for_island (Sum.inl 5)).1.2.1 :=
  ⟨(C3_palette_pure_function_of_id (Sum.inl 5)).2.1 (Sum.inl 5) rfl,
   (C3_palette_pure_function_of_id (Sum.inl 5)).2.2.2.2.2.2.2.2.1.1⟩

theorem list_get_map_eq {α β : Type} (f : α → β) (l : List α) (i : Nat)
    (h : i < l.length) :
    (l.map f).get ⟨i, by simpa using h⟩ = f (l.get ⟨i, h⟩) := by
  simp

/-- C4: for every island with non-empty per-pixel UVs and any axis-source
point set (and any eigendecomposition result), every computed t value lies
in `[0, 1]`; and on the principal-axis path (axis found, projection span at
least `EPS`) a pixel attaining the minimum projection onto the axis gets
`t = 0` and a pixel attaining the maximum projection gets `t = 1`, exactly. -/
theorem C4_compute_local_t_range_and_extremes (eig : EigOracle)
    (pixel_uvs axis_source : List Pt) (hne : pixel_uvs ≠ []) :
    (∀ t ∈ compute_local_t eig pixel_uvs axis_source EPS, 0 ≤ t ∧ t ≤ 1) ∧
    (∀ axis, compute_principal_axis eig axis_source = some axis →
      EPS ≤ listMax (pixel_uvs.map (projT (meanPt axis_source) axis)) -
            listMin (pixel_uvs.map (projT (meanPt axis_source) axis)) →
      ∀ i, ∀ hi : i < pixel_uvs.length,
        (projT (meanPt axis_source) axis (pixel_uvs.get ⟨i, hi⟩) =
            listMin (pixel_uvs.map (projT (meanPt axis_source) axis)) →
          (compute_local_t eig pixel_uvs axis_source EPS).getD i 0 = 0) ∧
        (projT (meanPt axis_source) axis (pixel_uvs.get ⟨i, hi⟩) =
            listMax (pixel_uvs.map (projT (meanPt axis_source) axis)) →
          (compute_local_t eig pixel_uvs axis_source EPS).getD i 0 = 1)) := by
  constructor
  · intro t ht
    unfold compute_local_t at ht
    cases hax : compute_principal_axis eig axis_source with
    | none =>
      rw [hax] at ht
      exact clamp01_array_mem _ t ht
    | some axis =>
      rw [hax] at ht
      dsimp only at ht
      split at ht
      · exact clamp01_array_mem _ t ht
      · exact clamp01_array_mem _ t ht
  · intro axis hax hspan i hi
    have heps : (0 : ℚ) < EPS := by norm_num [EPS]
    have hct : compute_local_t eig pixel_uvs axis_source EPS =
        clamp01_array ((pixel_uvs.map (projT (meanPt axis_source) axis)).map
          (fun t => (t - listMin (pixel_uvs.map (projT (meanPt axis_source) axis))) /
            (listMax (pixel_uvs.map (projT (meanPt axis_source) axis)) -
             listMin (pixel_uvs.map (projT (meanPt axis_source) axis))))) := by
      unfold compute_local_t
      rw [hax]
      dsimp only
      rw [if_neg (not_lt.mpr hspan)]
    have hspan0 :
        listMax (pixel_uvs.map (projT (meanPt axis_source) axis)) -
          listMin (pixel_uvs.map (projT (meanPt axis_source) axis)) ≠ 0 := by
      intro h
      rw [h] at hspan
      linarith
    have hmem : i < ((pixel_uvs.map (projT (meanPt axis_source) axis)).map
        (fun t => (t - listMin (pixel_uvs.map (projT (meanPt axis_source) axis))) /
          (listMax (pixel_uvs.map (projT (meanPt axis_source) axis)) -
           listMin (pixel_uvs.map (projT (meanPt axis_source) axis))))).length := by
      simpa using hi
    have hproj : i < (pixel_uvs.map (projT (meanPt axis_source) axis)).length := by
      simpa using hi
    have hgetD :
        (compute_local_t eig pixel_uvs axis_source EPS).getD i 0 =
        clamp ((projT (meanPt axis_source) axis (pixel_uvs.get ⟨i, hi⟩) -
            listMin (pixel_uvs.map (projT (meanPt axis_source) axis))) /
          (listMax (pixel_uvs.map (projT (meanPt axis_source) axis)) -
           listMin (pixel_uvs.map (projT (meanPt axis_source) axis)))) 0 1 := by
      rw [hct]
      unfold clamp01_array
      rw [getD_map_eq _ _ i hmem, list_get_map_eq _ _ i hproj, list_get_map_eq _ _ i hi]
    constructor
    · intro hmin
      rw [hgetD, hmin, sub_self, zero_div]
      unfold clamp
      norm_num
    · intro hmax
      rw [hgetD, hmax, div_self hspan0]
      unfold clamp
      norm_num

/-- C4 witness: two pixels on the u axis with the oracle returning axis
`(1, 0)`: the span hypothesis holds, the first pixel attains the minimum
projection and gets `t = 0`, the second attains the maximum and gets
`t = 1`. -/
theorem C4_compute_local_t_range_and_extremes_witness :
    (compute_local_t (fun _ => some (1, 0)) [(0, 0), (1, 0)] [(0, 0), (1, 0)]
      EPS).getD 0 0 = 0 ∧
    (compute_local_t (fun _ => some (1, 0)) [(0, 0), (1, 0)] [(0, 0), (1, 0)]
      EPS).getD 1 0 = 1 := by
  have h := C4_compute_local_t_range_and_extremes (fun _ => some (1, 0))
    [(0, 0), (1, 0)] [(0, 0), (1, 0)] (by simp)
  have hax : compute_principal_axis (fun _ => some (1, 0)) [(0, 0), (1, 0)] =
      some (1, 0) := by
    unfold compute_principal_axis strideSample orient_axis
    norm_num
  have hproj0 : projT (meanPt [(0, 0), (1, 0)]) (1, 0) ((0 : ℚ), (0 : ℚ)) = -(1 / 2) := by
    unfold projT meanPt
    norm_num
  have hproj1 : projT (meanPt [(0, 0), (1, 0)]) (1, 0) ((1 : ℚ), (0 : ℚ)) = 1 / 2 := by
    unfold projT meanPt
    norm_num
  have hlist : ([((0 : ℚ), (0 : ℚ)), (1, 0)].map (projT (meanPt [(0, 0), (1, 0)]) (1, 0))) =
      [-(1 / 2), 1 / 2] := by
    rw [List.map_cons, List.map_cons, List.map_nil, hproj0, hproj1]
  have h2 := h.2 (1, 0) hax (by rw [hlist]; norm_num [listMin, listMax, EPS])
  constructor
  · exact (h2 0 (by norm_num)).1 (by rw [hlist]; exact hproj0.trans (by norm_num [listMin]))
  · exact (h2 1 (by norm_num)).2 (by rw [hlist]; exact hproj1.trans (by norm_num [listMax]))

/-- C10: in explicit mode, a descriptor whose `uvs` parses as a valid (N,2)
float array but whose row count differs from the pixel count after
deduplication and bounds-clipping raises no error: the island is produced
with `pixel_uvs = none`, the renderer then treats it exactly as if its UVs
were inferred from pixel positions, and with positive canvas dimensions the
inferred UVs are `u = (x+0.5)/width`, `v = 1-(y+0.5)/height`. -/
theorem C10_mismatched_uvs_silently_ignored (width height : Int) (idx : Nat)
    (entry : ExplicitEntry) (px : List (Int × Int)) (uvs : List Pt)
    (hpx : entry.pixels = some px) (huvs : entry.uvs = some uvs)
    (hne : normalize_pixels px width height ≠ [])
    (hlen : uvs.length ≠ (normalize_pixels px width height).length) :
    explicit_entry_island width height idx entry =
      Except.ok (some
        { island_id := entry.id.getD (Sum.inl ((idx : Int) + 1)),
          pixels := normalize_pixels px width height,
          pixel_uvs := none,
          uv_points := entry.uv_points }) ∧
    (∀ (eig : EigOracle) (w h : Nat) (out : Raster) (isl : IslandData),
      isl.pixel_uvs = none →
      render_one_island eig w h out isl =
        render_one_island eig w h out
          { isl with pixel_uvs := some (infer_uvs_from_pixels isl.pixels w h) }) ∧
    (∀ (pixels : List (Int × Int)) (w h : Int), 1 ≤ w → 1 ≤ h →
      infer_uvs_from_pixels pixels w h =
        pixels.map (fun p =>
          (((p.1 : ℚ) + 1 / 2) / (w : ℚ), 1 - ((p.2 : ℚ) + 1 / 2) / (h : ℚ)))) := by
  refine ⟨?_, ?_, ?_⟩
  · unfold explicit_entry_island
    rw [hpx, huvs]
    dsimp only
    rw [if_neg (by simpa [List.isEmpty_iff] using hne)]
    rw [if_neg hlen]
  · intro eig w h out isl hnone
    unfold render_one_island
    rw [hnone]
    dsimp only
    by_cases hemp : isl.pixels.isEmpty = true
    · rw [if_pos hemp, if_pos hemp]
    · rw [if_neg hemp, if_neg hemp, if_pos (by simp [infer_uvs_from_pixels])]
  · intro pixels w h hw hh
    unfold infer_uvs_from_pixels
    rw [max_eq_right hw, max_eq_right hh]

/-- C10 witness: a single-pixel descriptor with a 2-row `uvs` array on a 1×1
canvas parses without error into an island with no per-pixel UVs. -/
theorem C10_mismatched_uvs_silently_ignored_witness :
    explicit_entry_island 1 1 0
      { pixels := some [(0, 0)], uvs := some [(0, 0), (1, 1)] } =
      Except.ok (some
        { island_id := Sum.inl 1, pixels := [(0, 0)], pixel_uvs := none,
          uv_points := none }) := by
  have h := (C10_mismatched_uvs_silently_ignored 1 1 0
    { pixels := some [(0, 0)], uvs := some [(0, 0), (1, 1)] }
    [(0, 0)] [(0, 0), (1, 1)] rfl rfl (by decide) (by decide)).1
  simpa using h

theorem getD_enum_map_outer (l : List (List Int)) (f : Nat × List Int → List Int)
    (j : Nat) : (l.enum.map f).getD j [] = ((l[j]?).map (fun a => f (j, a))).getD [] := by
  rw [List.getD_eq_getElem?_getD, List.getElem?_map, ← List.get?_eq_getElem?,
    List.get?_enum, List.get?_eq_getElem?, Option.map_map]
  rfl

theorem getD_enum_map_inner (l : List Int) (f : Nat × Int → Int) (j : Nat) :
    (l.enum.map f).getD j 0 = ((l[j]?).map (fun a => f (j, a))).getD 0 := by
  rw [List.getD_eq_getElem?_getD, List.getElem?_map, ← List.get?_eq_getElem?,
    List.get?_enum, List.get?_eq_getElem?, Option.map_map]
  rfl

theorem cellAt_enum_map (g : Grid) (F : Nat → Nat → Int → Int) (x y : Int) :
    cellAt (g.enum.map (fun ry => ry.2.enum.map (fun xv => F ry.1 xv.1 xv.2))) x y =
      if y.toNat < g.length ∧ x.toNat < (g.getD y.toNat []).length then
        F y.toNat x.toNat (cellAt g x y)
      else cellAt g x y := by
  unfold cellAt
  rw [getD_enum_map_outer]
  rcases hrow : g[y.toNat]? with _ | row
  · have hge : g.length ≤ y.toNat := List.getElem?_eq_none_iff.mp hrow
    have hgd : g.getD y.toNat [] = [] := by
      rw [List.getD_eq_getElem?_getD, hrow]
      rfl
    rw [hgd]
    simp only [Option.map_none, Option.getD_none]
    rw [if_neg]
    · rfl
    · intro hcon
      simp at hcon
  · have hlt : y.toNat < g.length := by
      by_contra hcon
      rw [List.getElem?_eq_none_iff.mpr (by omega)] at hrow
      exact Option.noConfusion hrow
    have hgd : g.getD y.toNat [] = row := by
      rw [List.getD_eq_getElem?_getD, hrow]
      rfl
    rw [hgd]
    show ((List.map (fun xv => F y.toNat xv.1 xv.2) row.enum).getD x.toNat 0) =
      if y.toNat < g.length ∧ x.toNat < row.length then
        F y.toNat x.toNat (row.getD x.toNat 0)
      else row.getD x.toNat 0
    rw [getD_enum_map_inner]
    rcases hcell : row[x.toNat]? with _ | v
    · have hge2 : row.length ≤ x.toNat := List.getElem?_eq_none_iff.mp hcell
      have hv : row.getD x.toNat 0 = 0 := by
        rw [List.getD_eq_getElem?_getD, hcell]
        rfl
      rw [hv]
      rw [if_neg]
      · rfl
      · intro hcon
        omega
    · have hlt2 : x.toNat < row.length := by
        by_contra hcon
        rw [List.getElem?_eq_none_iff.mpr (by omega)] at hcell
        exact Option.noConfusion hcell
      have hv : row.getD x.toNat 0 = v := by
        rw [List.getD_eq_getElem?_getD, hcell]
        rfl
      rw [hv]
      rw [if_pos ⟨hlt, hlt2⟩]
      rfl

theorem rasterize_cell_of_ne (tri : Tri) (mx Mx my My : Int) (den : ℚ)
    (iid bg : Int) (j i : Nat) (v : Int) (hne : v ≠ bg) :
    rasterize_cell tri mx Mx my My den iid bg j i v = v := by
  unfold rasterize_cell
  dsimp only
  exact if_neg (fun hc => hne hc.2.2.2.2.2.2.2)

theorem rasterize_cell_changed (tri : Tri) (mx Mx my My : Int) (den : ℚ)
    (iid bg : Int) (j i : Nat) (v : Int)
    (hch : rasterize_cell tri mx Mx my My den iid bg j i v ≠ v) :
    v = bg ∧ rasterize_cell tri mx Mx my My den iid bg j i v = iid := by
  revert hch
  unfold rasterize_cell
  dsimp only
  split
  · rename_i hc
    intro _
    exact ⟨hc.2.2.2.2.2.2.2, rfl⟩
  · intro hch
    exact absurd rfl hch

theorem rasterize_preserves_nonbg (g : Grid) (tri : Tri) (iid bg : Int) (x y : Int)
    (hne : cellAt g x y ≠ bg) :
    cellAt (rasterize_triangle_into_map g tri iid bg) x y = cellAt g x y := by
  unfold rasterize_triangle_into_map
  dsimp only
  split
  · rfl
  · split
    · rfl
    · rw [cellAt_enum_map]
      split
      · exact rasterize_cell_of_ne _ _ _ _ _ _ _ _ _ _ _ hne
      · rfl

theorem rasterize_paints_only_bg (g : Grid) (tri : Tri) (iid bg : Int) (x y : Int)
    (hch : cellAt (rasterize_triangle_into_map g tri iid bg) x y ≠ cellAt g x y) :
    cellAt g x y = bg ∧ cellAt (rasterize_triangle_into_map g tri iid bg) x y = iid := by
  revert hch
  unfold rasterize_triangle_into_map
  dsimp only
  split
  · intro hch
    exact absurd rfl hch
  · split
    · intro hch
      exact absurd rfl hch
    · rw [cellAt_enum_map]
      split
      · intro hch
        exact rasterize_cell_changed _ _ _ _ _ _ _ _ _ _ _ hch
      · intro hch
        exact absurd rfl hch

theorem rasterize_component_preserves_nonbg (comp_tris : List Tri) (g : Grid)
    (iid bg w h : Int) (x y : Int) (hne : cellAt g x y ≠ bg) :
    cellAt (rasterize_component g comp_tris iid bg w h) x y = cellAt g x y := by
  induction comp_tris generalizing g with
  | nil => rfl
  | cons t ts ih =>
    unfold rasterize_component at ih ⊢
    rw [List.foldl_cons]
    rw [ih _ (by rw [rasterize_preserves_nonbg _ _ _ _ _ _ hne]; exact hne)]
    exact rasterize_preserves_nonbg _ _ _ _ _ _ hne

theorem mesh_process_component_id_map (bg w h : Int) (tris : List Tri)
    (st : MeshState) (comp : List Nat) :
    (mesh_process_component bg w h tris st comp).id_map =
      rasterize_component st.id_map (comp.map (fun i => tris.getD i triDefault))
        (skip_background st.next_island_id bg) bg w h := by
  unfold mesh_process_component
  dsimp only
  split <;> rfl

theorem mesh_fold_preserves_nonbg (bg w h : Int) (tris : List Tri)
    (comps : List (List Nat)) (st : MeshState) (x y : Int)
    (hne : cellAt st.id_map x y ≠ bg) :
    cellAt ((comps.foldl (mesh_process_component bg w h tris) st).id_map) x y =
      cellAt st.id_map x y := by
  induction comps generalizing st with
  | nil => rfl
  | cons c cs ih =>
    rw [List.foldl_cons]
    have hstep : cellAt ((mesh_process_component bg w h tris st c).id_map) x y =
        cellAt st.id_map x y := by
      rw [mesh_process_component_id_map]
      exact rasterize_component_preserves_nonbg _ _ _ _ _ _ _ _ hne
    rw [ih _ (by rw [hstep]; exact hne), hstep]

/-- C8: during mesh-mode rasterization a cell is painted only if it holds the
background id: a single `rasterize_triangle_into_map` call never changes a
non-background cell, any change paints a background cell with the island id,
and the whole per-component loop of `islands_from_mesh_payload` never
overwrites a cell that already holds a non-background id (first-writer-wins
across later triangles and later components). -/
theorem C8_first_writer_wins :
    (∀ (g : Grid) (tri : Tri) (iid bg : Int) (x y : Int), cellAt g x y ≠ bg →
      cellAt (rasterize_triangle_into_map g tri iid bg) x y = cellAt g x y) ∧
    (∀ (g : Grid) (tri : Tri) (iid bg : Int) (x y : Int),
      cellAt (rasterize_triangle_into_map g tri iid bg) x y ≠ cellAt g x y →
      cellAt g x y = bg ∧ cellAt (rasterize_triangle_into_map g tri iid bg) x y = iid) ∧
    (∀ (bg w h : Int) (tris : List Tri) (comps : List (List Nat)) (st : MeshState)
      (x y : Int), cellAt st.id_map x y ≠ bg →
      cellAt ((comps.foldl (mesh_process_component bg w h tris) st).id_map) x y =
        cellAt st.id_map x y) :=
  ⟨rasterize_preserves_nonbg, rasterize_paints_only_bg, mesh_fold_preserves_nonbg⟩

/-- C8 witness: a 1×1 grid already holding island id 3 (background 0) is
unchanged by a further triangle rasterization and by a further component. -/
theorem C8_first_writer_wins_witness :
    cellAt (rasterize_triangle_into_map [[3]] triDefault 1 0) 0 0 = cellAt [[3]] 0 0 ∧
    cellAt (([[0]] : List (List Nat)).foldl
      (mesh_process_component 0 1 1 [triDefault]) ⟨[[3]], [], 1⟩).id_map 0 0 =
      cellAt [[3]] 0 0 := by
  constructor
  · exact C8_first_writer_wins.1 [[3]] triDefault 1 0 0 0 (by decide)
  · exact C8_first_writer_wins.2.2 0 1 1 [triDefault] [[0]] ⟨[[3]], [], 1⟩ 0 0 (by decide)

theorem gridCoords_mem (g : Grid) (id : Int) (p : Int × Int)
    (hp : p ∈ gridCoords g id) :
    cellAt g p.1 p.2 = id ∧ 0 ≤ p.1 ∧ 0 ≤ p.2 ∧ p.2 < (g.length : Int) ∧
      p.1 < ((g.getD p.2.toNat []).length : Int) := by
  unfold gridCoords at hp
  rw [List.mem_flatten] at hp
  obtain ⟨l, hl, hpl⟩ := hp
  rw [List.mem_map] at hl
  obtain ⟨ry, hry, rfl⟩ := hl
  rw [List.mem_map] at hpl
  obtain ⟨xv, hxv, rfl⟩ := hpl
  rw [List.mem_filter] at hxv
  obtain ⟨hxe, hval⟩ := hxv
  have hval' : xv.2 = id := of_decide_eq_true hval
  have hrg : g.get? ry.1 = some ry.2 := List.mem_enum_iff_get?.mp hry
  have hxr : ry.2.get? xv.1 = some xv.2 := List.mem_enum_iff_get?.mp hxe
  have hry_lt : ry.1 < g.length := by
    by_contra hcon
    rw [List.get?_eq_none.mpr (by omega)] at hrg
    exact Option.noConfusion hrg
  have hxv_lt : xv.1 < ry.2.length := by
    by_contra hcon
    rw [List.get?_eq_none.mpr (by omega)] at hxr
    exact Option.noConfusion hxr
  have hgd_row : g.getD ry.1 [] = ry.2 := by
    rw [List.getD_eq_getElem?_getD, ← List.get?_eq_getElem?, hrg]
    rfl
  have hv : ry.2.getD xv.1 0 = xv.2 := by
    rw [List.getD_eq_getElem?_getD, ← List.get?_eq_getElem?, hxr]
    rfl
  have htn : ((ry.1 : Int)).toNat = ry.1 := Int.toNat_natCast ry.1
  have htn2 : ((xv.1 : Int)).toNat = xv.1 := Int.toNat_natCast xv.1
  refine ⟨?_, ?_, ?_, ?_, ?_⟩
  · unfold cellAt
    dsimp only
    rw [htn, htn2, hgd_row, hv, hval']
  · exact Int.natCast_nonneg _
  · exact Int.natCast_nonneg _
  · dsimp only
    exact_mod_cast hry_lt
  · dsimp only
    rw [htn, hgd_row]
    exact_mod_cast hxv_lt

theorem gridCoords_nodup (g : Grid) (id : Int) : (gridCoords g id).Nodup := by
  unfold gridCoords
  rw [List.nodup_flatten]
  constructor
  · intro l hl
    rw [List.mem_map] at hl
    obtain ⟨ry, _, rfl⟩ := hl
    apply List.Nodup.map_on
    · intro a ha b hb hab
      have ha' : ry.2.get? a.1 = some a.2 :=
        List.mem_enum_iff_get?.mp (List.mem_of_mem_filter ha)
      have hb' : ry.2.get? b.1 = some b.2 :=
        List.mem_enum_iff_get?.mp (List.mem_of_mem_filter hb)
      have h1 : a.1 = b.1 := by
        have h := congrArg Prod.fst hab
        dsimp at h
        exact_mod_cast h
      have h2 : a.2 = b.2 := by
        rw [h1] at ha'
        rw [ha'] at hb'
        exact Option.some_injective _ hb'
      exact Prod.ext h1 h2
    · exact List.Nodup.filter _ ((List.nodup_enum_map_fst ry.2).of_map _)
  · have hpair : List.Pairwise (fun a b : Nat × List Int => a.1 ≠ b.1) g.enum := by
      have h := List.nodup_enum_map_fst g
      rw [List.Nodup, List.pairwise_map] at h
      exact h
    rw [List.pairwise_map]
    refine hpair.imp ?_
    intro a b hne
    rw [List.disjoint_left]
    intro p hpa hpb
    rw [List.mem_map] at hpa hpb
    obtain ⟨xa, _, rfl⟩ := hpa
    obtain ⟨xb, _, hxb⟩ := hpb
    have : (a.1 : Int) = (b.1 : Int) := by
      have := congrArg Prod.snd hxb
      dsimp at this
      rw [← this]
    exact hne (by exact_mod_cast this)

theorem skip_background_ne (n bg : Int) : skip_background n bg ≠ bg := by
  unfold skip_background
  split <;> omega

theorem skip_background_ge (n bg : Int) : n ≤ skip_background n bg := by
  unfold skip_background
  split <;> omega

theorem rasterize_length (g : Grid) (t : Tri) (i b : Int) :
    (rasterize_triangle_into_map g t i b).length = g.length := by
  unfold rasterize_triangle_into_map
  dsimp only
  split
  · rfl
  · split
    · rfl
    · simp

theorem rasterize_getD_length (g : Grid) (t : Tri) (i b : Int) (j : Nat) :
    ((rasterize_triangle_into_map g t i b).getD j []).length = (g.getD j []).length := by
  unfold rasterize_triangle_into_map
  dsimp only
  split
  · rfl
  · split
    · rfl
    · rw [getD_enum_map_outer]
      rcases hj : g[j]? with _ | row
      · have hgd : g.getD j [] = [] := by
          rw [List.getD_eq_getElem?_getD, hj]
          rfl
        rw [hgd]
        rfl
      · have hgd : g.getD j [] = row := by
          rw [List.getD_eq_getElem?_getD, hj]
          rfl
        rw [hgd]
        simp

theorem rasterize_component_length (ts : List Tri) (g : Grid) (i b w h : Int) :
    (rasterize_component g ts i b w h).length = g.length := by
  induction ts generalizing g with
  | nil => rfl
  | cons t ts ih =>
    unfold rasterize_component at ih ⊢
    rw [List.foldl_cons, ih, rasterize_length]

theorem rasterize_component_getD_length (ts : List Tri) (g : Grid) (i b w h : Int)
    (j : Nat) :
    ((rasterize_component g ts i b w h).getD j []).length = (g.getD j []).length := by
  induction ts generalizing g with
  | nil => rfl
  | cons t ts ih =>
    unfold rasterize_component at ih ⊢
    rw [List.foldl_cons, ih, rasterize_getD_length]

theorem mesh_process_component_next (bg w h : Int) (tris : List Tri)
    (st : MeshState) (comp : List Nat) :
    (mesh_process_component bg w h tris st comp).next_island_id =
      skip_background st.next_island_id bg + 1 := by
  unfold mesh_process_component
  dsimp only
  split <;> rfl

theorem mesh_process_component_islands (bg w h : Int) (tris : List Tri)
    (st : MeshState) (comp : List Nat) :
    (mesh_process_component bg w h tris st comp).islands = st.islands ∨
    (mesh_process_component bg w h tris st comp).islands = st.islands ++
      [{ island_id := Sum.inl (skip_background st.next_island_id bg),
         pixels := gridCoords (rasterize_component st.id_map
             (comp.map (fun i => tris.getD i triDefault))
             (skip_background st.next_island_id bg) bg w h)
           (skip_background st.next_island_id bg),
         pixel_uvs := none,
         uv_points := some ((comp.map (fun i => tris.getD i triDefault)).foldr
           (fun t acc => triCorners t ++ acc) []) }] := by
  unfold mesh_process_component
  dsimp only
  split
  · left
    rfl
  · right
    rfl

theorem mesh_inv_step (bg w h : Int) (tris : List Tri) (st : MeshState)
    (comp : List Nat) (hinv : MeshInv bg st) :
    MeshInv bg (mesh_process_component bg w h tris st comp) := by
  obtain ⟨hisl, hpair⟩ := hinv
  have hmap := mesh_process_component_id_map bg w h tris st comp
  have hnext := mesh_process_component_next bg w h tris st comp
  have hge := skip_background_ge st.next_island_id bg
  constructor
  · intro isl hmem
    rcases mesh_process_component_islands bg w h tris st comp with hc | hc
    · rw [hc] at hmem
      obtain ⟨k, hid, hkbg, hklt, hcell, hnd, hbnd⟩ := hisl isl hmem
      refine ⟨k, hid, hkbg, by rw [hnext]; omega, ?_, hnd, ?_⟩
      · intro p hp
        rw [hmap]
        have hc0 := hcell p hp
        rw [rasterize_component_preserves_nonbg _ _ _ _ _ _ _ _
          (by rw [hc0]; exact hkbg)]
        exact hc0
      · intro p hp
        have hb := hbnd p hp
        rw [hmap]
        refine ⟨hb.1, hb.2.1, ?_, ?_⟩
        · rw [rasterize_component_length]
          exact hb.2.2.1
        · rw [rasterize_component_getD_length]
          exact hb.2.2.2
    · rw [hc] at hmem
      rw [List.mem_append] at hmem
      rcases hmem with hold | hnew
      · obtain ⟨k, hid, hkbg, hklt, hcell, hnd, hbnd⟩ := hisl isl hold
        refine ⟨k, hid, hkbg, by rw [hnext]; omega, ?_, hnd, ?_⟩
        · intro p hp
          rw [hmap]
          have hc0 := hcell p hp
          rw [rasterize_component_preserves_nonbg _ _ _ _ _ _ _ _
            (by rw [hc0]; exact hkbg)]
          exact hc0
        · intro p hp
          have hb := hbnd p hp
          rw [hmap]
          refine ⟨hb.1, hb.2.1, ?_, ?_⟩
          · rw [rasterize_component_length]
            exact hb.2.2.1
          · rw [rasterize_component_getD_length]
            exact hb.2.2.2
      · rw [List.mem_singleton] at hnew
        subst hnew
        refine ⟨skip_background st.next_island_id bg, rfl, skip_background_ne _ _,
          by rw [hnext]; omega, ?_, ?_, ?_⟩
        · intro p hp
          dsimp only at hp
          rw [hmap]
          exact (gridCoords_mem _ _ p hp).1
        · exact gridCoords_nodup _ _
        · intro p hp
          dsimp only at hp
          have hs := gridCoords_mem _ _ p hp
          rw [hmap]
          exact ⟨hs.2.1, hs.2.2.1, hs.2.2.2.1, hs.2.2.2.2⟩
  · rcases mesh_process_component_islands bg w h tris st comp with hc | hc <;> rw [hc]
    · exact hpair
    · rw [List.pairwise_append]
      refine ⟨hpair, List.pairwise_singleton _ _, ?_⟩
      intro a hmem b hb
      rw [List.mem_singleton] at hb
      subst hb
      obtain ⟨k, hid, _, hklt, _⟩ := hisl a hmem
      rw [hid]
      show k < skip_background st.next_island_id bg
      omega

theorem mesh_inv_fold (bg w h : Int) (tris : List Tri) (comps : List (List Nat))
    (st : MeshState) (hinv : MeshInv bg st) :
    MeshInv bg (comps.foldl (mesh_process_component bg w h tris) st) := by
  induction comps generalizing st with
  | nil => exact hinv
  | cons c cs ih =>
    rw [List.foldl_cons]
    exact ih _ (mesh_inv_step bg w h tris st c hinv)

theorem islands_from_mesh_payload_ok (p : MeshPayload) (r : List IslandData × Int × Int)
    (h : islands_from_mesh_payload p = Except.ok r) :
    r.1 ≠ [] ∧ r.2.1 = p.width ∧ r.2.2 = p.height ∧ 0 < p.width ∧ 0 < p.height ∧
    ∃ tris : List Tri, ∃ comps : List (List Nat),
      r.1 = (comps.foldl
        (mesh_process_component p.background_id p.width p.height tris)
        { id_map := List.replicate p.height.toNat
            (List.replicate p.width.toNat p.background_id),
          islands := [], next_island_id := 1 }).islands := by
  unfold islands_from_mesh_payload at h
  split at h
  · exact Except.noConfusion h
  · rename_i hwh
    push_neg at hwh
    split at h
    · exact Except.noConfusion h
    · rename_i tc htc
      dsimp only at h
      split at h
      · exact Except.noConfusion h
      · rename_i hne
        injection h with h2
        refine ⟨?_, by rw [← h2], by rw [← h2], by omega, by omega, tc.1, tc.2, ?_⟩
        · rw [← h2]
          simpa [List.isEmpty_iff] using hne
        · rw [← h2]

theorem mem_insertUnique (x : Int) (l : List Int) (y : Int) :
    y ∈ insertUnique x l ↔ y = x ∨ y ∈ l := by
  induction l with
  | nil => simp [insertUnique]
  | cons a as ih =>
    unfold insertUnique
    split
    · simp only [List.mem_cons]
    · split
      · rename_i hlt heq
        subst heq
        simp only [List.mem_cons]
        tauto
      · simp only [List.mem_cons, ih]
        tauto

theorem sorted_insertUnique (x : Int) (l : List Int) (h : l.Sorted (· < ·)) :
    (insertUnique x l).Sorted (· < ·) := by
  induction l with
  | nil => simp [insertUnique]
  | cons a as ih =>
    rw [List.sorted_cons] at h
    unfold insertUnique
    split
    · rename_i hlt
      rw [List.sorted_cons]
      refine ⟨?_, List.sorted_cons.mpr h⟩
      intro b hb
      rw [List.mem_cons] at hb
      rcases hb with rfl | hb
      · exact hlt
      · exact lt_trans hlt (h.1 b hb)
    · split
      · exact List.sorted_cons.mpr h
      · rename_i h1 h2
        rw [List.sorted_cons]
        refine ⟨?_, ih h.2⟩
        intro b hb
        rw [mem_insertUnique] at hb
        rcases hb with rfl | hb
        · omega
        · exact h.1 b hb

theorem np_unique_sorted (g : Grid) : (np_unique g).Sorted (· < ·) := by
  unfold np_unique
  induction g.flatten with
  | nil => simp
  | cons a as ih => exact sorted_insertUnique a _ ih

theorem np_unique_nodup (g : Grid) : (np_unique g).Nodup :=
  (np_unique_sorted g).nodup

theorem mem_insertUniquePix (x : Int × Int) (l : List (Int × Int)) (y : Int × Int) :
    y ∈ insertUniquePix x l ↔ y = x ∨ y ∈ l := by
  induction l with
  | nil => simp [insertUniquePix]
  | cons a as ih =>
    unfold insertUniquePix
    split
    · simp only [List.mem_cons]
    · split
      · rename_i hlt heq
        subst heq
        simp only [List.mem_cons]
        tauto
      · simp only [List.mem_cons, ih]
        tauto

theorem pairwise_insertUniquePix (x : Int × Int) (l : List (Int × Int))
    (h : l.Pairwise pixLex) : (insertUniquePix x l).Pairwise pixLex := by
  induction l with
  | nil => simp [insertUniquePix, pixLex]
  | cons a as ih =>
    rw [List.pairwise_cons] at h
    unfold insertUniquePix
    split
    · rename_i hlt
      rw [List.pairwise_cons]
      refine ⟨?_, List.pairwise_cons.mpr h⟩
      intro b hb
      rw [List.mem_cons] at hb
      rcases hb with rfl | hb
      · exact hlt
      · have h2 := h.1 b hb
        unfold pixLex at h2 ⊢
        omega
    · split
      · exact List.pairwise_cons.mpr h
      · rename_i h1 h2
        rw [List.pairwise_cons]
        refine ⟨?_, ih h.2⟩
        intro b hb
        rw [mem_insertUniquePix] at hb
        rcases hb with rfl | hb
        · unfold pixLex
          rw [Prod.ext_iff] at h2
          omega
        · exact h.1 b hb

theorem np_unique_rows_pairwise (l : List (Int × Int)) :
    (np_unique_rows l).Pairwise pixLex := by
  unfold np_unique_rows
  induction l with
  | nil => simp
  | cons a as ih => exact pairwise_insertUniquePix a _ ih

theorem np_unique_rows_nodup (l : List (Int × Int)) : (np_unique_rows l).Nodup := by
  refine (np_unique_rows_pairwise l).imp ?_
  intro a b hab heq
  subst heq
  unfold pixLex at hab
  omega

theorem np_unique_rows_mem (l : List (Int × Int)) (y : Int × Int) :
    y ∈ np_unique_rows l ↔ y ∈ l := by
  unfold np_unique_rows
  induction l with
  | nil => simp
  | cons a as ih =>
    rw [List.foldr_cons, mem_insertUniquePix, ih, List.mem_cons]

theorem normalize_pixels_nodup (l : List (Int × Int)) (w h : Int) :
    (normalize_pixels l w h).Nodup := by
  unfold normalize_pixels
  exact np_unique_rows_nodup _

theorem normalize_pixels_bounds (l : List (Int × Int)) (w h : Int) (p : Int × Int)
    (hp : p ∈ normalize_pixels l w h) :
    0 ≤ p.1 ∧ p.1 < w ∧ 0 ≤ p.2 ∧ p.2 < h := by
  unfold normalize_pixels at hp
  rw [np_unique_rows_mem] at hp
  rw [List.mem_filter] at hp
  have := hp.2
  simp only [Bool.and_eq_true, decide_eq_true_eq] at this
  tauto

theorem explicit_entry_island_ok_some (w h : Int) (idx : Nat) (entry : ExplicitEntry)
    (isl : IslandData) (hok : explicit_entry_island w h idx entry = Except.ok (some isl)) :
    ∃ raw, isl.pixels = normalize_pixels raw w h := by
  unfold explicit_entry_island at hok
  split at hok
  · exact Except.noConfusion hok
  · rename_i raw hraw
    dsimp only at hok
    split at hok
    · injection hok with h1
      exact Option.noConfusion h1
    · injection hok with h1
      refine ⟨raw, ?_⟩
      have h2 := Option.some_injective _ h1
      rw [← h2]

theorem explicit_islands_loop_mem (w h : Int) (es : List ExplicitEntry) :
    ∀ (idx : Nat) (islands : List IslandData),
      explicit_islands_loop w h idx es = Except.ok islands →
      ∀ isl ∈ islands, ∃ raw, isl.pixels = normalize_pixels raw w h := by
  induction es with
  | nil =>
    intro idx islands hok isl hmem
    unfold explicit_islands_loop at hok
    injection hok with h1
    rw [← h1] at hmem
    exact absurd hmem (List.not_mem_nil _)
  | cons e rest ih =>
    intro idx islands hok isl hmem
    unfold explicit_islands_loop at hok
    split at hok
    · exact Except.noConfusion hok
    · exact ih _ _ hok isl hmem
    · rename_i isl0 hisl0
      split at hok
      · exact Except.noConfusion hok
      · rename_i others hothers
        injection hok with h1
        rw [← h1] at hmem
        rw [List.mem_cons] at hmem
        rcases hmem with rfl | hmem
        · exact explicit_entry_island_ok_some w h idx e isl hisl0
        · exact ih _ _ hothers isl hmem

theorem islands_from_explicit_payload_ok (payload : ExplicitPayload)
    (r : List IslandData × Int × Int)
    (h : islands_from_explicit_payload payload = Except.ok r) :
    r.1 ≠ [] ∧ explicit_islands_loop r.2.1 r.2.2 0 payload.islands = Except.ok r.1 := by
  unfold islands_from_explicit_payload at h
  split at h
  · exact Except.noConfusion h
  · split at h
    · split at h
      · exact Except.noConfusion h
      · split at h
        · exact Except.noConfusion h
        · rename_i islands hloop
          split at h
          · exact Except.noConfusion h
          · rename_i hne
            injection h with h2
            subst h2
            refine ⟨by simpa [List.isEmpty_iff] using hne, hloop⟩
    · exact Except.noConfusion h

theorem islands_from_id_map_mem (ids : Grid) (bg : Int) (isl : IslandData)
    (hm : isl ∈ (islands_from_id_map ids bg).1) :
    ∃ k : Int, isl.island_id = Sum.inl k ∧ isl.pixels = gridCoords ids k := by
  unfold islands_from_id_map at hm
  dsimp only at hm
  rw [List.mem_filterMap] at hm
  obtain ⟨k, _, hf⟩ := hm
  by_cases he : (gridCoords ids k).isEmpty = true
  · rw [if_pos he] at hf
    exact Option.noConfusion hf
  · rw [if_neg he] at hf
    injection hf with hf
    exact ⟨k, by rw [← hf], by rw [← hf]⟩

theorem islands_from_id_map_pairwise (ids : Grid) (bg : Int) :
    List.Pairwise (fun a b : IslandData => ∀ p ∈ a.pixels, p ∉ b.pixels)
      (islands_from_id_map ids bg).1 := by
  unfold islands_from_id_map
  dsimp only
  rw [List.pairwise_filterMap]
  have hnd : ((np_unique ids).filter (fun v => decide (v ≠ bg))).Nodup :=
    (np_unique_nodup ids).filter _
  refine hnd.imp ?_
  intro a b hab c hc d hd
  rw [Option.mem_def] at hc hd
  by_cases hea : (gridCoords ids a).isEmpty = true
  · rw [if_pos hea] at hc
    exact Option.noConfusion hc
  · rw [if_neg hea] at hc
    injection hc with hc
    by_cases heb : (gridCoords ids b).isEmpty = true
    · rw [if_pos heb] at hd
      exact Option.noConfusion hd
    · rw [if_neg heb] at hd
      injection hd with hd
      intro p hp hpd
      rw [← hc] at hp
      rw [← hd] at hpd
      dsimp only at hp hpd
      have h1 := (gridCoords_mem ids a p hp).1
      have h2 := (gridCoords_mem ids b p hpd).1
      exact hab (by rw [← h1, ← h2])

theorem mesh_fold_length (bg w h : Int) (tris : List Tri) (comps : List (List Nat))
    (st : MeshState) :
    ((comps.foldl (mesh_process_component bg w h tris) st).id_map).length =
      st.id_map.length := by
  induction comps generalizing st with
  | nil => rfl
  | cons c cs ih =>
    rw [List.foldl_cons, ih]
    rw [mesh_process_component_id_map, rasterize_component_length]

theorem mesh_fold_getD_length (bg w h : Int) (tris : List Tri)
    (comps : List (List Nat)) (st : MeshState) (j : Nat) :
    (((comps.foldl (mesh_process_component bg w h tris) st).id_map).getD j []).length =
      (st.id_map.getD j []).length := by
  induction comps generalizing st with
  | nil => rfl
  | cons c cs ih =>
    rw [List.foldl_cons, ih]
    rw [mesh_process_component_id_map, rasterize_component_getD_length]

theorem mesh_ok_islands_props (p : MeshPayload) (r : List IslandData × Int × Int)
    (h : islands_from_mesh_payload p = Except.ok r) :
    List.Pairwise (fun a b : IslandData => ∀ q ∈ a.pixels, q ∉ b.pixels) r.1 ∧
    ∀ isl ∈ r.1, isl.pixels.Nodup ∧
      ∀ q ∈ isl.pixels, 0 ≤ q.1 ∧ q.1 < r.2.1 ∧ 0 ≤ q.2 ∧ q.2 < r.2.2 := by
  obtain ⟨hne, hw, hh, hwpos, hhpos, tris, comps, hr⟩ :=
    islands_from_mesh_payload_ok p r h
  have hinv : MeshInv p.background_id
      (comps.foldl (mesh_process_component p.background_id p.width p.height tris)
        { id_map := List.replicate p.height.toNat
            (List.replicate p.width.toNat p.background_id),
          islands := [], next_island_id := 1 }) := by
    apply mesh_inv_fold
    exact ⟨fun isl hisl => absurd hisl (List.not_mem_nil _), List.Pairwise.nil⟩
  obtain ⟨hisl, hpair⟩ := hinv
  constructor
  · rw [hr]
    refine hpair.imp_of_mem ?_
    intro a b hma hmb hlt q hqa hqb
    obtain ⟨ka, hida, _, _, hcella, _⟩ := hisl a hma
    obtain ⟨kb, hidb, _, _, hcellb, _⟩ := hisl b hmb
    rw [hida] at hlt
    rw [hidb] at hlt
    have hlt2 : ka < kb := hlt
    have e1 := hcella q hqa
    have e2 := hcellb q hqb
    rw [e1] at e2
    omega
  · intro isl hmem
    rw [hr] at hmem
    obtain ⟨k, _, _, _, _, hnd, hbnd⟩ := hisl isl hmem
    refine ⟨hnd, ?_⟩
    intro q hq
    have hb := hbnd q hq
    have hlen := mesh_fold_length p.background_id p.width p.height tris comps
      { id_map := List.replicate p.height.toNat
          (List.replicate p.width.toNat p.background_id),
        islands := [], next_island_id := 1 }
    have hrowlen := mesh_fold_getD_length p.background_id p.width p.height tris comps
      { id_map := List.replicate p.height.toNat
          (List.replicate p.width.toNat p.background_id),
        islands := [], next_island_id := 1 } q.2.toNat
    rw [hlen] at hb
    rw [hrowlen] at hb
    simp only [List.length_replicate] at hb
    have hrow : ((List.replicate p.height.toNat
        (List.replicate p.width.toNat p.background_id)).getD q.2.toNat []).length =
        if q.2.toNat < p.height.toNat then p.width.toNat else 0 := by
      rw [List.getD_eq_getElem?_getD, List.getElem?_replicate]
      split
      · simp
      · rfl
    rw [hrow] at hb
    have hwt : (p.width.toNat : Int) = p.width := Int.toNat_of_nonneg (by omega)
    have hht : (p.height.toNat : Int) = p.height := Int.toNat_of_nonneg (by omega)
    rw [hw, hh]
    obtain ⟨hb1, hb2, hb3, hb4⟩ := hb
    refine ⟨hb1, ?_, hb2, by omega⟩
    by_cases hc : q.2.toNat < p.height.toNat
    · rw [if_pos hc] at hb4
      omega
    · rw [if_neg hc] at hb4
      omega

/-- C2 counterexample: in explicit mode two descriptors may claim the same
pixel; the resolver accepts them and returns two islands whose pixel sets
overlap, so "pixel sets are pairwise disjoint in any of the three input
modes" is false as stated. -/
theorem C2_disjointness_counterexample :
    (islands_from_explicit_payload overlap_payload).toOption =
      some
        ([{ island_id := Sum.inl 1, pixels := [(0, 0)], pixel_uvs := none,
            uv_points := none },
          { island_id := Sum.inl 2, pixels := [(0, 0)], pixel_uvs := none,
            uv_points := none }], 1, 1) ∧
    ¬ List.Pairwise (fun a b : IslandData => ∀ q ∈ a.pixels, q ∉ b.pixels)
        [{ island_id := Sum.inl 1, pixels := [(0, 0)], pixel_uvs := none,
           uv_points := none },
         { island_id := Sum.inl 2, pixels := [(0, 0)], pixel_uvs := none,
           uv_points := none }] := by
  constructor
  · decide
  · decide

/-- C2 (amended): pixel coordinates within one island are always unique and
within canvas bounds, in all three modes; the islands' pixel sets are
pairwise disjoint in ID-map and mesh modes, while in explicit mode
disjointness holds only when the supplied descriptors are disjoint (the
resolver never enforces it, see the counterexample). -/
theorem C2_pixel_sets_amended :
    (∀ (ids : Grid) (bg : Int),
      List.Pairwise (fun a b : IslandData => ∀ q ∈ a.pixels, q ∉ b.pixels)
        (islands_from_id_map ids bg).1 ∧
      ∀ isl ∈ (islands_from_id_map ids bg).1, isl.pixels.Nodup ∧
        (IsRect ids → ∀ q ∈ isl.pixels,
          0 ≤ q.1 ∧ q.1 < ((islands_from_id_map ids bg).2.1 : Int) ∧
          0 ≤ q.2 ∧ q.2 < ((islands_from_id_map ids bg).2.2 : Int))) ∧
    (∀ (payload : ExplicitPayload) (r : List IslandData × Int × Int),
      islands_from_explicit_payload payload = Except.ok r →
      ∀ isl ∈ r.1, isl.pixels.Nodup ∧
        ∀ q ∈ isl.pixels, 0 ≤ q.1 ∧ q.1 < r.2.1 ∧ 0 ≤ q.2 ∧ q.2 < r.2.2) ∧
    (∀ (p : MeshPayload) (r : List IslandData × Int × Int),
      islands_from_mesh_payload p = Except.ok r →
      List.Pairwise (fun a b : IslandData => ∀ q ∈ a.pixels, q ∉ b.pixels) r.1 ∧
      ∀ isl ∈ r.1, isl.pixels.Nodup ∧
        ∀ q ∈ isl.pixels, 0 ≤ q.1 ∧ q.1 < r.2.1 ∧ 0 ≤ q.2 ∧ q.2 < r.2.2) := by
  refine ⟨?_, ?_, ?_⟩
  · intro ids bg
    refine ⟨islands_from_id_map_pairwise ids bg, ?_⟩
    intro isl hmem
    obtain ⟨k, hid, hpix⟩ := islands_from_id_map_mem ids bg isl hmem
    refine ⟨by rw [hpix]; exact gridCoords_nodup ids k, ?_⟩
    intro hrect q hq
    rw [hpix] at hq
    have hg := gridCoords_mem ids k q hq
    have hw : (islands_from_id_map ids bg).2.1 = (ids.headD []).length := rfl
    have hh : (islands_from_id_map ids bg).2.2 = ids.length := rfl
    rw [hw, hh]
    have hlt : q.2.toNat < ids.length := by
      have h1 := hg.2.2.2.1
      have h0 := hg.2.2.1
      omega
    have hrl : (ids.getD q.2.toNat []).length = (ids.headD []).length := by
      apply hrect
      rw [List.getD_eq_getElem?_getD, List.getElem?_eq_getElem hlt]
      exact List.getElem_mem hlt
    have hxb := hg.2.2.2.2
    rw [hrl] at hxb
    exact ⟨hg.2.1, hxb, hg.2.2.1, hg.2.2.2.1⟩
  · intro payload r h isl hmem
    obtain ⟨_, hloop⟩ := islands_from_explicit_payload_ok payload r h
    obtain ⟨raw, hpix⟩ := explicit_islands_loop_mem r.2.1 r.2.2 payload.islands 0 r.1
      hloop isl hmem
    rw [hpix]
    exact ⟨normalize_pixels_nodup _ _ _,
      fun q hq => normalize_pixels_bounds _ _ _ q hq⟩
  · intro p r h
    exact mesh_ok_islands_props p r h

/-- C2 witness: the unique pixel of the single island of the 1×1 ID map
`[[5]]` lies within the canvas bounds. -/
theorem C2_pixel_sets_amended_witness :
    (0 : Int) ≤ 0 ∧ (0 : Int) < ((islands_from_id_map [[5]] 0).2.1 : Int) ∧
    (0 : Int) ≤ 0 ∧ (0 : Int) < ((islands_from_id_map [[5]] 0).2.2 : Int) := by
  have h := ((C2_pixel_sets_amended.1 [[5]] 0).2
    { island_id := Sum.inl 5, pixels := [(0, 0)], pixel_uvs := none, uv_points := none }
    (by decide)).2 (by unfold IsRect; decide) (0, 0) (by decide)
  exact h

theorem mesh_fold_next (bg w h : Int) (tris : List Tri) (comps : List (List Nat))
    (st0 : MeshState) (h1 : st0.next_island_id = 1) (k : Nat) (hk : k ≤ comps.length) :
    ((comps.take k).foldl (mesh_process_component bg w h tris) st0).next_island_id =
      if 1 ≤ bg ∧ bg ≤ (k : Int) then (k : Int) + 2 else (k : Int) + 1 := by
  induction k with
  | zero =>
    rw [List.take_zero, List.foldl_nil, h1, if_neg (by omega)]
    norm_num
  | succ k ih =>
    have hkk : k < comps.length := by omega
    rw [List.take_succ, List.foldl_append, List.getElem?_eq_getElem hkk]
    simp only [Option.toList_some]
    rw [List.foldl_cons, List.foldl_nil, mesh_process_component_next, ih (by omega)]
    unfold skip_background
    push_cast
    split_ifs <;> omega

/-- C7: in mesh mode the synthetic id assigned to the k-th connected
component (0-based discovery order) is `k+1` shifted once past the
configured background id: it equals `k+2` when `1 ≤ background_id ≤ k+1` and
`k+1` otherwise — ids start at 1, increment by one per component and skip
the background id (with `background_id = 1` the first assigned id is 2);
moreover no island returned by `islands_from_mesh_payload` ever carries the
background id. -/
theorem C7_mesh_synthetic_id_assignment :
    (∀ (bg w h : Int) (tris : List Tri) (comps : List (List Nat)) (st0 : MeshState),
      st0.next_island_id = 1 → ∀ k : Nat, k < comps.length →
      skip_background (((comps.take k).foldl (mesh_process_component bg w h tris)
          st0).next_island_id) bg =
        if 1 ≤ bg ∧ bg ≤ (k : Int) + 1 then (k : Int) + 2 else (k : Int) + 1) ∧
    (∀ (p : MeshPayload) (r : List IslandData × Int × Int),
      islands_from_mesh_payload p = Except.ok r →
      ∀ isl ∈ r.1, isl.island_id ≠ Sum.inl p.background_id) := by
  constructor
  · intro bg w h tris comps st0 h1 k hk
    rw [mesh_fold_next bg w h tris comps st0 h1 k (by omega)]
    unfold skip_background
    split_ifs <;> omega
  · intro p r h isl hmem
    obtain ⟨_, _, _, _, _, tris, comps, hr⟩ := islands_from_mesh_payload_ok p r h
    have hinv : MeshInv p.background_id
        (comps.foldl (mesh_process_component p.background_id p.width p.height tris)
          { id_map := List.replicate p.height.toNat
              (List.replicate p.width.toNat p.background_id),
            islands := [], next_island_id := 1 }) := by
      apply mesh_inv_fold
      exact ⟨fun isl hisl => absurd hisl (List.not_mem_nil _), List.Pairwise.nil⟩
    rw [hr] at hmem
    obtain ⟨k, hid, hkbg, _⟩ := hinv.1 isl hmem
    rw [hid]
    intro hcon
    injection hcon with hcon
    exact hkbg hcon

/-- C7 witness: with `background_id = 1` and a single component, the id
assigned to the first component is 2, not 1. -/
theorem C7_mesh_synthetic_id_assignment_witness :
    skip_background ((([[0]] : List (List Nat)).take 0).foldl
      (mesh_process_component 1 4 4 [triDefault])
      { id_map := [[1]], islands := [], next_island_id := 1 }).next_island_id 1 = 2 := by
  have h := C7_mesh_synthetic_id_assignment.1 1 4 4 [triDefault] [[0]]
    { id_map := [[1]], islands := [], next_island_id := 1 } rfl 0 (by decide)
  simpa using h

/-- C1 counterexample: an ID-map raster containing only the background id
yields zero islands, yet the resolver does not fail — it returns an empty
island list (its type has no error channel at all) and the pipeline renders
a fully transparent 1×1 output raster instead of stopping. -/
theorem C1_zero_islands_counterexample :
    (islands_from_id_map [[0]] 0).1 = [] ∧
    pipeline_id_map (fun _ => none) [[0]] 0 true = [[(0, 0, 0, 0)]] := by
  constructor
  · decide
  · decide

/-- C1 (amended): explicit and mesh modes do fail fatally when resolution
yields zero islands (a successful result always carries at least one
island), but ID-map mode does not: `islands_from_id_map` cannot fail, and
when it yields zero islands the pipeline still produces the untouched
background raster. -/
theorem C1_zero_islands_amended :
    (∀ (payload : ExplicitPayload) (r : List IslandData × Int × Int),
      islands_from_explicit_payload payload = Except.ok r → r.1 ≠ []) ∧
    (∀ (p : MeshPayload) (r : List IslandData × Int × Int),
      islands_from_mesh_payload p = Except.ok r → r.1 ≠ []) ∧
    (∀ (eig : EigOracle) (ids : Grid) (bg : Int) (tb : Bool),
      (islands_from_id_map ids bg).1 = [] →
      pipeline_id_map eig ids bg tb =
        List.replicate (islands_from_id_map ids bg).2.2
          (List.replicate (islands_from_id_map ids bg).2.1
            (0, 0, 0, if tb then 0 else 255))) := by
  refine ⟨?_, ?_, ?_⟩
  · intro payload r h
    exact (islands_from_explicit_payload_ok payload r h).1
  · intro p r h
    exact (islands_from_mesh_payload_ok p r h).1
  · intro eig ids bg tb hempty
    unfold pipeline_id_map render_island_gradients
    dsimp only
    rw [hempty, List.foldl_nil]

/-- C1 witness: the amended theorem applied to the 1×1 ID map holding only
the configured background id 7 — the pipeline still renders a raster. -/
theorem C1_zero_islands_amended_witness :
    pipeline_id_map (fun _ => none) [[7]] 7 true =
      List.replicate (islands_from_id_map [[7]] 7).2.2
        (List.replicate (islands_from_id_map [[7]] 7).2.1
          (0, 0, 0, if true then 0 else 255)) :=
  C1_zero_islands_amended.2.2 (fun _ => none) [[7]] 7 true (by decide)

theorem pack_rgb_arith (r g b : Nat) (hg : g < 256) (hb : b < 256) :
    ((r <<< 16) ||| (g <<< 8) ||| b : Nat) = r * 65536 + g * 256 + b := by
  rw [Nat.shiftLeft_eq, Nat.shiftLeft_eq]
  have h1 : r * 2 ^ 16 ||| g * 2 ^ 8 = r * 65536 + g * 256 := by
    have h := Nat.mul_add_lt_is_or (b := g * 2 ^ 8) (i := 16) (by omega) r
    calc r * 2 ^ 16 ||| g * 2 ^ 8 = 2 ^ 16 * r ||| g * 2 ^ 8 := by rw [Nat.mul_comm]
      _ = 2 ^ 16 * r + g * 2 ^ 8 := h.symm
      _ = r * 65536 + g * 256 := by ring
  rw [h1]
  have h2 : r * 65536 + g * 256 = 2 ^ 8 * (r * 256 + g) := by ring
  rw [h2, ← Nat.mul_add_lt_is_or (by omega) (r * 256 + g)]

theorem cellAt_map_load (arr : List (List (List Nat))) (f : List Nat → Int)
    (x y : Int) (hin : y.toNat < arr.length ∧ x.toNat < (arr.getD y.toNat []).length) :
    cellAt (arr.map (fun row => row.map f)) x y =
      f ((arr.getD y.toNat []).getD x.toNat []) := by
  unfold cellAt
  have hrow : (arr.map (fun row => row.map f)).getD y.toNat [] =
      (arr.getD y.toNat []).map f := by
    simp [List.getD_eq_getElem?_getD, List.getElem?_map,
      List.getElem?_eq_getElem hin.1]
  rw [hrow]
  have h2 := hin.2
  generalize arr.getD y.toNat [] = row at h2 ⊢
  simp [List.getD_eq_getElem?_getD, List.getElem?_map,
    List.getElem?_eq_getElem h2]

/-- C6 counterexample: a fully transparent RGBA pixel is forced to id 0, not
to the configured background id; with `background_id = 7` the transparent
pixel of a 1×1 RGBA ID map becomes an island with id 0 — so "fully
transparent pixels never form an island, whatever background id is
configured" is false as stated. -/
theorem C6_alpha_zero_counterexample :
    (load_id_map_rgb [[[7, 7, 7, 0]]] 4).toOption = some [[0]] ∧
    (islands_from_id_map [[0]] 7).1 =
      [{ island_id := Sum.inl 0, pixels := [(0, 0)], pixel_uvs := none,
         uv_points := none }] := by
  constructor
  · decide
  · decide

/-- C6 (amended): in ID-map mode with an RGB/RGBA raster the per-pixel id is
the RGB triple packed into a 24-bit integer (`(r << 16) | (g << 8) | b`,
which equals `r*65536 + g*256 + b` for 8-bit channels), and every pixel with
alpha 0 is forced to id **0** — the hard-coded default — rather than to the
configured background id; consequently transparent pixels never form an
island only when the configured background id is 0. -/
theorem C6_idmap_alpha_amended :
    (∀ (arr : List (List (List Nat))) (channels : Nat), 3 ≤ channels →
      load_id_map_rgb arr channels =
        Except.ok (arr.map (fun row => row.map (fun px =>
          if channels ≥ 4 ∧ px.getD 3 0 = 0 then (0 : Int)
          else ((px.getD 0 0 <<< 16) ||| (px.getD 1 0 <<< 8) ||| px.getD 2 0 : Nat))))) ∧
    (∀ r g b : Nat, g < 256 → b < 256 →
      ((r <<< 16) ||| (g <<< 8) ||| b : Nat) = r * 65536 + g * 256 + b) ∧
    (∀ (arr : List (List (List Nat))) (g : Grid) (channels : Nat),
      4 ≤ channels → load_id_map_rgb arr channels = Except.ok g →
      ∀ isl ∈ (islands_from_id_map g 0).1, ∀ q ∈ isl.pixels,
        ((arr.getD q.2.toNat []).getD q.1.toNat []).getD 3 0 ≠ 0) := by
  refine ⟨?_, pack_rgb_arith, ?_⟩
  · intro arr channels hch
    unfold load_id_map_rgb
    rw [if_pos hch]
  · intro arr g channels hch hload isl hmem q hq
    have hg : g = arr.map (fun row => row.map (fun px =>
        if channels ≥ 4 ∧ px.getD 3 0 = 0 then (0 : Int)
        else ((px.getD 0 0 <<< 16) ||| (px.getD 1 0 <<< 8) ||| px.getD 2 0 : Nat))) := by
      unfold load_id_map_rgb at hload
      rw [if_pos (by omega)] at hload
      injection hload with h2
      exact h2.symm
    obtain ⟨k, hid, hpix⟩ := islands_from_id_map_mem g 0 isl hmem
    have hk0 : k ≠ 0 := by
      unfold islands_from_id_map at hmem
      dsimp only at hmem
      rw [List.mem_filterMap] at hmem
      obtain ⟨k2, hk2mem, hf⟩ := hmem
      rw [List.mem_filter] at hk2mem
      by_cases he : (gridCoords g k2).isEmpty = true
      · rw [if_pos he] at hf
        exact Option.noConfusion hf
      · rw [if_neg he] at hf
        injection hf with hf
        have hkk : k2 = k := by
          have := congrArg IslandData.island_id hf
          dsimp only at this
          rw [hid] at this
          exact Sum.inl.injEq _ _ ▸ (by injection this)
        rw [← hkk]
        exact of_decide_eq_true hk2mem.2
    rw [hpix] at hq
    have hcell := gridCoords_mem g k q hq
    have hin : q.2.toNat < arr.length ∧ q.1.toNat < (arr.getD q.2.toNat []).length := by
      have h1 := hcell.2.2.2.1
      have h2 := hcell.2.2.2.2
      have h0 := hcell.2.1
      have h00 := hcell.2.2.1
      rw [hg] at h1
      rw [List.length_map] at h1
      constructor
      · omega
      · have hrl : (g.getD q.2.toNat []).length = (arr.getD q.2.toNat []).length := by
          rw [hg]
          by_cases hy : q.2.toNat < arr.length
          · rw [List.getD_eq_getElem?_getD, List.getElem?_map,
              List.getElem?_eq_getElem hy]
            rw [List.getD_eq_getElem?_getD (l := arr), List.getElem?_eq_getElem hy]
            simp
          · rw [List.getD_eq_getElem?_getD, List.getElem?_map,
              List.getElem?_eq_none_iff.mpr (by simpa using hy)]
            rw [List.getD_eq_getElem?_getD (l := arr),
              List.getElem?_eq_none_iff.mpr (by omega)]
            rfl
        rw [hrl] at h2
        omega
    have hc2 := hcell.1
    rw [hg] at hc2
    rw [cellAt_map_load arr _ q.1 q.2 hin] at hc2
    intro halpha
    rw [if_pos ⟨by omega, halpha⟩] at hc2
    exact hk0 hc2.symm

theorem C6_idmap_alpha_amended_witness :
    load_id_map_rgb [[[1, 2, 3, 9]]] 4 = Except.ok [[(66051 : Int)]] ∧
    ((1 <<< 16) ||| (2 <<< 8) ||| 3 : Nat) = 1 * 65536 + 2 * 256 + 3 ∧
    (([[[1, 2, 3, 9]]].getD (0 : Int).toNat []).getD (0 : Int).toNat []).getD 3 0 ≠ 0 := by
  have h := C6_idmap_alpha_amended
  refine ⟨?_, h.2.1 1 2 3 (by decide) (by decide), ?_⟩
  · exact (h.1 [[[1, 2, 3, 9]]] 4 (by decide)).trans (congrArg Except.ok (by decide))
  · exact h.2.2 [[[1, 2, 3, 9]]] [[(66051 : Int)]] 4 (by decide)
      ((h.1 [[[1, 2, 3, 9]]] 4 (by decide)).trans (congrArg Except.ok (by decide)))
      { island_id := Sum.inl 66051, pixels := [(0, 0)], pixel_uvs := none,
        uv_points := none }
      (by decide) (0, 0) (by decide)

/-- C9: the 1×1 ID-map holding value 5 with background id 0 renders to a 1×1
RGBA raster whose single pixel is opaque (alpha 255) with RGB equal to the
HSV→RGB conversion of the palette derived from id 5 interpolated at t = 1/2,
the degenerate single-pixel fallback value — for every eigendecomposition
oracle, since the axis path is never taken for a single point. -/
theorem C9_single_pixel_idmap (eig : EigOracle) :
    pipeline_id_map eig [[5]] 0 true = [[(110, 99, 235, 255)]] ∧
    compute_local_t eig (infer_uvs_from_pixels [((0 : Int), (0 : Int))] 1 1)
      (infer_uvs_from_pixels [((0 : Int), (0 : Int))] 1 1) EPS = [1 / 2] ∧
    hsv_to_rgb_np (lerp_hsv (palette_for_island (Sum.inl 5)).1
      (palette_for_island (Sum.inl 5)).2 [1 / 2]) = [(110, 99, 235)] := by
  have huv : infer_uvs_from_pixels [((0 : Int), (0 : Int))] 1 1 =
      [(1 / 2, 1 / 2)] := by
    norm_num [infer_uvs_from_pixels, max_def]
  have ht : compute_local_t eig (infer_uvs_from_pixels [((0 : Int), (0 : Int))] 1 1)
      (infer_uvs_from_pixels [((0 : Int), (0 : Int))] 1 1) EPS = [1 / 2] := by
    rw [huv]
    unfold compute_local_t
    have hax : compute_principal_axis eig [((1 : ℚ) / 2, (1 : ℚ) / 2)] = none := rfl
    rw [hax]
    norm_num [fallback_t_from_bbox, normalize_local_uv, listMin, listMax,
      clamp01_array, clamp, EPS, min_def, max_def]
  have h : stable_hash64 (Sum.inl 5) = 10039658952310757792 := by decide
  have h1 : (10039658952310757792 >>> 8 &&& 65535 : Nat) = 36249 := by decide
  have h2 : (10039658952310757792 >>> 24 &&& 65535 : Nat) = 40942 := by decide
  have h3 : (10039658952310757792 >>> 40 &&& 65535 : Nat) = 21512 := by decide
  have hrgb : hsv_to_rgb_np (lerp_hsv (palette_for_island (Sum.inl 5)).1
      (palette_for_island (Sum.inl 5)).2 [1 / 2]) = [(110, 99, 235)] := by
    norm_num [hsv_to_rgb_np, lerp_hsv, palette_for_island, h, h1, h2, h3,
      PALETTE_LIBRARY, List.getD, qmod, clamp, min_def, max_def, toByte,
      roundHalfEven, abs_of_nonneg, abs_of_nonpos]
    omega
  refine ⟨?_, ht, hrgb⟩
  have hpipe : pipeline_id_map eig [[5]] 0 true =
      ([((0 : Int), (0 : Int))].zip (hsv_to_rgb_np (lerp_hsv
        (palette_for_island (Sum.inl 5)).1 (palette_for_island (Sum.inl 5)).2
        (compute_local_t eig (infer_uvs_from_pixels [((0 : Int), (0 : Int))] 1 1)
          (infer_uvs_from_pixels [((0 : Int), (0 : Int))] 1 1) EPS)))).foldl
        (fun o pr => writePixel o pr.1.1 pr.1.2 pr.2) [[(0, 0, 0, 0)]] := rfl
  rw [hpipe, ht, hrgb]
  decide

end UVIG
